import Mathlib

/-!
Verification of the SE-Sync Riemannian Staircase driver interface
(`src/C++/SE-Sync/include/SESync/SESync.h`) against its specification.

The repository sources contain the public header only: the option struct
`SESyncOpts` with its default values, the termination-status enumeration
`SESyncStatus`, the result struct `SESyncResult`, and the declarations and
documented contracts of `SESync` and `escape_saddle`.  The bodies of the
staircase driver, the truncated preconditioned conjugate-gradient (tCG)
subsolver, the trust-region Newton (TNT) driver, the minimum-eigenpair
certifier and the saddle-escape line search are not in the sources, so the
behavioural definitions below are modelled from the specification
(sections 4.1 to 4.5 and 7), while the data declarations mirror the header.

Scalars are modelled as rationals: the specification prescribes behaviour,
not floating-point bit patterns, and all numerical kernels (objective,
gradients, Hessian products, eigensolves, clocks) are external collaborators
abstracted as oracle functions.
-/

namespace SESyncModel
/-- Scalar type of the model; the header uses a floating-point `Scalar`,
the specification prescribes only order-theoretic behaviour, so rationals
suffice. -/
abbrev Scalar := ℚ

/-- Abstract iterate Y on the manifold: a point of relaxation rank `rows`
(the number of rows of the matrix Y), identified abstractly by `idx`; the
matrix entries themselves live in the external linear-algebra kernels. -/
structure Iterate where
  rows : ℕ
  idx : ℕ
deriving DecidableEq, Repr

/-- Mirror of the option struct `SESyncOpts` of SESync.h, with the default
member values of the header.  Fields that only select external kernels
(formulation, projection factorization, preconditioner choice,
initialization strategy, verbosity, thread count) are kept as plain data
where a claim needs them and omitted otherwise. -/
structure SESyncOpts where
  grad_norm_tol : Scalar := 1/100
  preconditioned_grad_norm_tol : Scalar := 1/10000
  rel_func_decrease_tol : Scalar := 1/1000000
  stepsize_tol : Scalar := 1/1000
  max_iterations : ℕ := 1000
  max_tCG_iterations : ℕ := 10000
  max_computation_time : Scalar := 1800
  STPCG_kappa : Scalar := 1/10
  STPCG_theta : Scalar := 1/2
  user_function : Option (Iterate → Scalar → Scalar) := none
  r0 : ℕ := 5
  rmax : ℕ := 10
  min_eig_num_tol : Scalar := 1/1000
  LOBPCG_block_size : ℕ := 4
  LOBPCG_max_fill_factor : Scalar := 3
  LOBPCG_drop_tol : Scalar := 1/1000
  LOBPCG_max_iterations : ℕ := 100
  reg_Cholesky_precon_max_condition_number : Scalar := 1000000
  verbose : Bool := false
  log_iterates : Bool := false
  num_threads : ℕ := 1

/-- Mirror of the enumeration `SESyncStatus` of SESync.h. -/
inductive SESyncStatus where
  | GlobalOpt
  | SaddlePoint
  | EigImprecision
  | MaxRank
  | ElapsedTime
deriving DecidableEq, Repr

/-- Reason for termination of the tCG inner iteration, one per clause of the
stopping rule of spec section 4.1. -/
inductive TCGReason where
  | kappaTheta
  | negativeCurvature
  | exceededTrustRegion
  | maxIterations
deriving DecidableEq, Repr

/-- Observations made by the tCG loop during one inner iteration, produced by
the external matrix-vector kernels: whether the current conjugate direction
has nonpositive curvature, whether the updated iterate would leave the trust
region, and the preconditioned residual norm after the update. -/
structure TCGIter where
  negcurv : Bool
  exceedsTR : Bool
  rnormNext : Scalar
deriving DecidableEq, Repr

/-- Modelled from the spec: input data of one invocation of the truncated
preconditioned conjugate-gradient subsolver of section 4.1, whose
implementation is absent from the repository sources.  The gradient,
Hessian-vector-product and preconditioner kernels are external, so they are
abstracted into the initial preconditioned residual norm, the externally
computed fractional power of that norm, and a stream of per-iteration
observations. -/
structure TCGInput where
  rnorm0 : Scalar
  rnorm0PowTheta : Scalar
  iter : ℕ → TCGIter

/-- Residual stopping threshold of the tCG stopping rule:
the norm bound is the initial residual norm times the minimum of kappa and
the theta fractional power of the initial residual norm. -/
def tCGthreshold (P : TCGInput) (kappa : Scalar) : Scalar :=
  P.rnorm0 * min kappa P.rnorm0PowTheta

/-- Outcome of the tCG subsolver: the inner iteration at which it stopped,
the stopping reason, and whether the returned update direction is a
trust-region boundary point (the Steihaug-Toint point for a trust-region
exit, the exiting direction for negative curvature). -/
structure TCGOutcome where
  stopIter : ℕ
  reason : TCGReason
  onBoundary : Bool
deriving DecidableEq, Repr

/-- The disjunction of the three per-iteration stopping conditions of the tCG
stopping rule at inner iteration k: negative curvature detected, the iterate
would leave the trust region, or the updated preconditioned residual norm
falls below the threshold. -/
def tCGstops (P : TCGInput) (thr : Scalar) (k : ℕ) : Prop :=
  (P.iter k).negcurv = true ∨ (P.iter k).exceedsTR = true ∨ (P.iter k).rnormNext ≤ thr

instance (P : TCGInput) (thr : Scalar) (k : ℕ) : Decidable (tCGstops P thr k) := by
  unfold tCGstops; infer_instance

/-- Modelled from the spec: the tCG inner loop of section 4.1, absent from
the repository sources.  At each inner iteration it checks, in order,
negative curvature (truncate and return the exiting direction), trust-region
exit (return the Steihaug-Toint boundary point), and the kappa/theta
residual reduction test; it stops with the maxIterations reason when the
iteration budget is exhausted. -/
def tCGAux (P : TCGInput) (thr : Scalar) : ℕ → ℕ → TCGOutcome
  | 0, k => ⟨k, TCGReason.maxIterations, false⟩
  | fuel + 1, k =>
    if (P.iter k).negcurv then ⟨k, TCGReason.negativeCurvature, true⟩
    else if (P.iter k).exceedsTR then ⟨k, TCGReason.exceededTrustRegion, true⟩
    else if (P.iter k).rnormNext ≤ thr then ⟨k, TCGReason.kappaTheta, false⟩
    else tCGAux P thr fuel (k + 1)

/-- Modelled from the spec: entry point of the truncated preconditioned
conjugate-gradient subsolver, running the inner loop from iteration 0 with
the iteration budget max_tCG_iterations. -/
def tCG (P : TCGInput) (kappa : Scalar) (maxIters : ℕ) : TCGOutcome :=
  tCGAux P (tCGthreshold P kappa) maxIters 0

/-- Example tCG input used to witness C1: three interior iterations, then a
negative-curvature detection at inner iteration 3. -/
def tCGexample : TCGInput where
  rnorm0 := 4
  rnorm0PowTheta := 2
  iter := fun k =>
    if k < 3 then ⟨false, false, 1⟩ else ⟨true, false, 1⟩

/-- Candidate update produced by the trust-region subproblem solution at a
given iterate and radius: the retracted candidate point, the predicted
decrease of the local quadratic model, the norm of the update step, and the
number of Hessian-vector products the tCG subsolver consumed to produce it
(the shared counter side effect of spec section 4.1). -/
structure Candidate where
  Yplus : Iterate
  pred : Scalar
  stepnorm : Scalar
  hessvec : ℕ

/-- Data returned by the external LOBPCG minimum-eigenpair computation for
the certificate matrix at one rank level: the computed minimum eigenvalue,
whether LOBPCG converged to the required precision within its iteration
budget, the number of iterations it performed, and an abstract identifier of
the eigenvector. -/
structure EigResult where
  lambdaMin : Scalar
  converged : Bool
  iterations : ℕ
  vecIdx : ℕ

/-- Oracle bundling the external numerical collaborators of the solver:
problem dimensions, objective and gradient-norm evaluation, the trust-region
subproblem kernel, the sampled wall clock, the per-rank certificate
eigensolve, the saddle-escape line-search candidates, the initializer, the
rounded-solution objective and the initial trust-region radius. -/
structure ProblemOracle where
  d : ℕ
  n : ℕ
  F : Iterate → Scalar
  gradnorm : Iterate → Scalar
  pgradnorm : Iterate → Scalar
  subsolve : Iterate → Scalar → Candidate
  clock : ℕ → Scalar
  eig : ℕ → EigResult
  lsCand : ℕ → ℕ → Iterate
  initial : ℕ → Iterate
  roundedCost : Iterate → Scalar
  initialRadius : Scalar

/-- Distinguishable convergence reasons of the TNT driver, one per clause of
the convergence rule of spec section 4.2. -/
inductive TNTReason where
  | gradNorm
  | preconGradNorm
  | relFuncDecrease
  | stepsize
  | maxIterations
  | elapsedTime
deriving DecidableEq, Repr

/-- Trust-region radius growth factor applied on an accepted step; the
concrete constant is a documented design freedom of the specification. -/
def TRgrowth : Scalar := 2

/-- Trust-region radius shrink factor applied on a rejected step. -/
def TRshrink : Scalar := 1/4

/-- Acceptance threshold for the ratio of actual to predicted decrease; a
step is accepted when the actual decrease is at least this fraction of the
predicted decrease. -/
def TReta1 : Scalar := 1/10

/-- Accumulated per-iteration statistics of one TNT run, stored in reverse
chronological order (the head of each list is the most recent entry). -/
structure TNTAcc where
  fvalsRev : List Scalar
  gnormsRev : List Scalar
  pgnormsRev : List Scalar
  timesRev : List Scalar
  hvpsRev : List ℕ
  hvpCount : ℕ
  iteratesRev : List Iterate
  mlogRev : List Scalar
  numOuter : ℕ

/-- Final state and per-iteration statistics of one TNT run at a fixed rank,
in chronological order. -/
structure TNTCore where
  Y : Iterate
  Fval : Scalar
  gradnorm : Scalar
  pgradnorm : Scalar
  function_values : List Scalar
  gradient_norms : List Scalar
  preconditioned_gradient_norms : List Scalar
  Hessian_vector_products : List ℕ
  elapsed_times : List Scalar
  iterates : List Iterate
  numOuter : ℕ
  reason : TNTReason
  tick : ℕ

/-- Observation produced by one invocation of the optional user monitor
function: the empty list when no monitor is configured, otherwise the single
observation the monitor computes from the current iterate and objective
value. -/
def monitorObs (mon : Option (Iterate → Scalar → Scalar)) (Y : Iterate)
    (Fv : Scalar) : List Scalar :=
  match mon with
  | none => []
  | some f => [f Y Fv]

/-- Final result assembly of a TNT run: the reverse-chronological
accumulators are reversed into chronological order and the final iterate is
evaluated once more for the reported scalars. -/
def TNTfinish (P : ProblemOracle) (Y : Iterate) (acc : TNTAcc)
    (reason : TNTReason) (tick : ℕ) : TNTCore :=
  { Y := Y
    Fval := P.F Y
    gradnorm := P.gradnorm Y
    pgradnorm := P.pgradnorm Y
    function_values := acc.fvalsRev.reverse
    gradient_norms := acc.gnormsRev.reverse
    preconditioned_gradient_norms := acc.pgnormsRev.reverse
    Hessian_vector_products := acc.hvpsRev.reverse
    elapsed_times := acc.timesRev.reverse
    iterates := acc.iteratesRev.reverse
    numOuter := acc.numOuter
    reason := reason
    tick := tick }

/-- Accumulator update performed once per outer iteration: the monitor is
invoked (when configured) on the current iterate and objective value, its
observation is logged, the outer-iteration counter advances, and the shared
Hessian-vector-product counter is incremented by the number of products the
subproblem solution consumed. -/
def TNTaccMon (mon : Option (Iterate → Scalar → Scalar)) (Y : Iterate)
    (Fv : Scalar) (dh : ℕ) (acc : TNTAcc) : TNTAcc :=
  { acc with
    mlogRev := monitorObs mon Y Fv ++ acc.mlogRev
    numOuter := acc.numOuter + 1
    hvpCount := acc.hvpCount + dh }

/-- Accumulator update performed on an accepted step: the statistics of the
new iterate are pushed onto the per-iteration logs, and the iterate itself
is pushed exactly when iterate logging is enabled. -/
def TNTaccPush (logIt : Bool) (Fplus gn pgn tclock : Scalar) (Yplus : Iterate)
    (acc : TNTAcc) : TNTAcc :=
  { acc with
    fvalsRev := Fplus :: acc.fvalsRev
    gnormsRev := gn :: acc.gnormsRev
    pgnormsRev := pgn :: acc.pgnormsRev
    timesRev := tclock :: acc.timesRev
    hvpsRev := acc.hvpCount :: acc.hvpsRev
    iteratesRev := if logIt then Yplus :: acc.iteratesRev else acc.iteratesRev }

/-- Modelled from the spec: the outer loop of the Riemannian trust-region
truncated-Newton driver of section 4.2, absent from the repository sources.
Each outer iteration samples the clock, tests the convergence clauses
(gradient norm, preconditioned gradient norm, iteration budget; relative
decrease and step size are tested on the accepted step), invokes the
monitor once, obtains a candidate from the subproblem kernel, and accepts it
with radius growth exactly when the actual decrease is at least TReta1
times the (nonnegative) predicted decrease, rejecting with radius shrink
otherwise.  The second component of the result is the chronological log of
monitor observations. -/
def TNTloop (P : ProblemOracle) (opts : SESyncOpts) (fuel tick : ℕ)
    (radius : Scalar) (Y : Iterate) (acc : TNTAcc) : TNTCore × List Scalar :=
  if opts.max_computation_time ≤ P.clock tick then
    (TNTfinish P Y acc TNTReason.elapsedTime tick, acc.mlogRev.reverse)
  else if P.gradnorm Y ≤ opts.grad_norm_tol then
    (TNTfinish P Y acc TNTReason.gradNorm tick, acc.mlogRev.reverse)
  else if P.pgradnorm Y ≤ opts.preconditioned_grad_norm_tol then
    (TNTfinish P Y acc TNTReason.preconGradNorm tick, acc.mlogRev.reverse)
  else
    match fuel with
    | 0 => (TNTfinish P Y acc TNTReason.maxIterations tick, acc.mlogRev.reverse)
    | fuel + 1 =>
      let c := P.subsolve Y radius
      let acc1 := TNTaccMon opts.user_function Y (P.F Y) c.hessvec acc
      if 0 ≤ c.pred ∧ TReta1 * c.pred ≤ P.F Y - P.F c.Yplus then
        let acc2 := TNTaccPush opts.log_iterates (P.F c.Yplus)
          (P.gradnorm c.Yplus) (P.pgradnorm c.Yplus) (P.clock tick) c.Yplus acc1
        if P.F Y - P.F c.Yplus ≤ opts.rel_func_decrease_tol * |P.F Y| then
          (TNTfinish P c.Yplus acc2 TNTReason.relFuncDecrease (tick + 1),
            acc2.mlogRev.reverse)
        else if c.stepnorm ≤ opts.stepsize_tol then
          (TNTfinish P c.Yplus acc2 TNTReason.stepsize (tick + 1),
            acc2.mlogRev.reverse)
        else TNTloop P opts fuel (tick + 1) (TRgrowth * radius) c.Yplus acc2
      else TNTloop P opts fuel (tick + 1) (TRshrink * radius) Y acc1

/-- Initial accumulator of a TNT run: the statistics of the initial iterate
are logged before the first outer iteration. -/
def TNTinitAcc (P : ProblemOracle) (opts : SESyncOpts) (Y0 : Iterate)
    (tick : ℕ) : TNTAcc :=
  { fvalsRev := [P.F Y0]
    gnormsRev := [P.gradnorm Y0]
    pgnormsRev := [P.pgradnorm Y0]
    timesRev := [P.clock tick]
    hvpsRev := [0]
    hvpCount := 0
    iteratesRev := if opts.log_iterates then [Y0] else []
    mlogRev := []
    numOuter := 0 }

/-- Modelled from the spec: one full TNT run at a fixed rank from the
initial iterate, with the iteration budget max_iterations. -/
def TNT (P : ProblemOracle) (opts : SESyncOpts) (tick : ℕ) (Y0 : Iterate) :
    TNTCore × List Scalar :=
  TNTloop P opts opts.max_iterations tick P.initialRadius Y0
    (TNTinitAcc P opts Y0 tick)

/-- Invariants of the TNT accumulator maintained by the outer loop: the head
of the reverse function-value log is the objective at the current iterate,
the log is sorted (most recent first, so accepted values never increase),
all per-iteration statistics logs have equal positive length, the iterate
log is kept exactly when log_iterates is set, and the monitor log has one
entry per outer iteration when a monitor is configured and is empty
otherwise. -/
def TNTinv (P : ProblemOracle) (opts : SESyncOpts) (Y : Iterate)
    (acc : TNTAcc) : Prop :=
  acc.fvalsRev.head? = some (P.F Y) ∧
  List.Chain' (fun a b : Scalar => a ≤ b) acc.fvalsRev ∧
  acc.fvalsRev ≠ [] ∧
  acc.gnormsRev.length = acc.fvalsRev.length ∧
  acc.pgnormsRev.length = acc.fvalsRev.length ∧
  acc.timesRev.length = acc.fvalsRev.length ∧
  (opts.log_iterates = true → acc.iteratesRev.length = acc.fvalsRev.length) ∧
  (opts.log_iterates = false → acc.iteratesRev = []) ∧
  (∀ f, opts.user_function = some f → acc.mlogRev.length = acc.numOuter) ∧
  (opts.user_function = none → acc.mlogRev = []) ∧
  acc.hvpsRev.length = acc.fvalsRev.length

/-- Conclusions of the TNT loop invariant on the returned core and monitor
log: the chronological function-value trace is nonempty and non-increasing,
all statistics traces have the same length, the iterate trace is governed by
log_iterates, and the monitor log length equals the number of outer
iterations when a monitor is configured and the log is empty otherwise. -/
def TNTconc (opts : SESyncOpts) (res : TNTCore × List Scalar) : Prop :=
  List.Chain' (fun a b : Scalar => b ≤ a) res.1.function_values ∧
  res.1.function_values ≠ [] ∧
  res.1.gradient_norms.length = res.1.function_values.length ∧
  res.1.preconditioned_gradient_norms.length = res.1.function_values.length ∧
  res.1.elapsed_times.length = res.1.function_values.length ∧
  (opts.log_iterates = true → res.1.iterates.length = res.1.function_values.length) ∧
  (opts.log_iterates = false → res.1.iterates = []) ∧
  (∀ f, opts.user_function = some f → res.2.length = res.1.numOuter) ∧
  (opts.user_function = none → res.2 = []) ∧
  res.1.Hessian_vector_products.length = res.1.function_values.length

/-- Classification of a certification outcome: the critical point is
certified globally optimal, the eigensolve was too imprecise to classify,
or a valid escape certificate was produced. -/
inductive CertOutcome where
  | certified
  | imprecise
  | escape
deriving DecidableEq, Repr

/-- Modelled from the spec: the outcome classification of the
minimum-eigenpair certifier of section 4.3, absent from the repository
sources.  The LOBPCG eigensolve itself is an external kernel delivering the
computed minimum eigenvalue and its convergence flag; the classifier
certifies when the eigenvalue is at least minus the numerical tolerance,
reports imprecision when the eigenvalue is below the tolerance but the
eigensolve did not converge to the required precision within its budget,
and otherwise returns a valid escape certificate. -/
def certify (tol : Scalar) (e : EigResult) : CertOutcome :=
  if -tol ≤ e.lambdaMin then CertOutcome.certified
  else if e.converged = false then CertOutcome.imprecise
  else CertOutcome.escape

/-- Modelled from the spec: the lambda-correction of the duality theory used
when returning GlobalOpt (section 4.3): the dual certificate is shifted by
the negative part of the computed minimum eigenvalue, in each of the
matrix-dimension-many diagonal entries, making it dual feasible. -/
def lambdaHat (lambdaMin : Scalar) : Scalar := min lambdaMin 0

/-- Modelled from the spec: the trace of the corrected dual certificate
matrix Lambda at a certified critical point.  At a first-order critical
point the trace of the uncorrected Lambda equals the attained objective
value, and the lambda-correction adds the negative part of the minimum
eigenvalue once per dimension of the certificate matrix. -/
def trLambdaOf (P : ProblemOracle) (sdp lambdaMin : Scalar) : Scalar :=
  sdp + (P.n * P.d : ℕ) * lambdaHat lambdaMin

/-- Iteration budget of the backtracking line search of the saddle-escape
module; the concrete constant is a design freedom of the specification. -/
def escapeLSmax : ℕ := 20

/-- Modelled from the spec: the backtracking line search of the
saddle-escape module of section 4.4, absent from the repository sources.
Successive candidate points (embeddings of Y at the next rank perturbed
along the lifted escape direction with shrinking step sizes, produced by the
external kernel) are tested against the two strict acceptance criteria of
the documented contract of escape_saddle: the objective strictly decreases
and the gradient norm strictly exceeds the gradient tolerance. -/
def escapeLSAux (P : ProblemOracle) (r : ℕ) (FY gradTol : Scalar) :
    ℕ → ℕ → Option Iterate
  | 0, _ => none
  | fuel + 1, i =>
    if P.F (P.lsCand r i) < FY ∧ gradTol < P.gradnorm (P.lsCand r i) then
      some (P.lsCand r i)
    else escapeLSAux P r FY gradTol fuel (i + 1)

/-- Modelled from the spec: the saddle-escape helper escape_saddle declared
in SESync.h, whose body is absent from the repository sources.  Its
parameters mirror the header declaration: the problem (whose relaxation
rank r must already be one greater than the number of rows of Y), the
critical point Y, the negative curvature theta, the eigenvector identifier,
and the two gradient-norm lower bounds.  Success returns the candidate
point at which to initialize the next rank level. -/
def escape_saddle (P : ProblemOracle) (r : ℕ) (Y : Iterate) (theta : Scalar)
    (vecIdx : ℕ) (gradient_tolerance preconditioned_gradient_tolerance : Scalar) :
    Option Iterate :=
  escapeLSAux P r (P.F Y) gradient_tolerance escapeLSmax 0

/-- Mirror of the result struct SESyncResult of SESync.h, with matrices
abstracted to iterate identifiers and scalar traces, together with a ghost
log of the rank visited at each level (spec section 4.5 appends each rank
level's statistics to the result log). -/
structure SESyncResult where
  Yopt : Iterate
  SDPval : Scalar
  gradnorm : Scalar
  trLambda : Scalar
  duality_gap : Scalar
  Fxhat : Scalar
  suboptimality_bound : Scalar
  function_values : List (List Scalar)
  gradient_norms : List (List Scalar)
  preconditioned_gradient_norms : List (List Scalar)
  Hessian_vector_products : List (List ℕ)
  elapsed_optimization_times : List (List Scalar)
  escape_direction_curvatures : List Scalar
  LOBPCG_iters : List ℕ
  verification_times : List Scalar
  iterates : List (List Iterate)
  visited_ranks : List ℕ
  status : SESyncStatus

/-- Per-level accumulators of the staircase driver, stored in reverse level
order (the head of each list belongs to the most recent level); the monitor
log is chronological. -/
structure StairAcc where
  fvals : List (List Scalar)
  gnorms : List (List Scalar)
  pgnorms : List (List Scalar)
  hvps : List (List ℕ)
  times : List (List Scalar)
  curvatures : List Scalar
  lobpcg : List ℕ
  vtimes : List Scalar
  iters : List (List Iterate)
  ranks : List ℕ
  mlog : List Scalar

/-- The empty staircase accumulator a run starts from. -/
def emptyStairAcc : StairAcc := ⟨[], [], [], [], [], [], [], [], [], [], []⟩

/-- Appends the statistics of one completed TNT level at the given rank to
the staircase accumulator. -/
def stairPushLevel (opts : SESyncOpts) (r : ℕ) (t : TNTCore)
    (mlog : List Scalar) (acc : StairAcc) : StairAcc :=
  { acc with
    fvals := t.function_values :: acc.fvals
    gnorms := t.gradient_norms :: acc.gnorms
    pgnorms := t.preconditioned_gradient_norms :: acc.pgnorms
    hvps := t.Hessian_vector_products :: acc.hvps
    times := t.elapsed_times :: acc.times
    iters := if opts.log_iterates then t.iterates :: acc.iters else acc.iters
    ranks := r :: acc.ranks
    mlog := acc.mlog ++ mlog }

/-- Final result assembly of the staircase driver: per-level logs are
reversed into increasing-rank order and the terminal scalars are filled
in.  The duality fields trLambda, duality_gap, Fxhat and
suboptimality_bound are only computed on the GlobalOpt path and are zero
otherwise. -/
def stairFinish (acc : StairAcc) (Yopt : Iterate) (sdp gnorm : Scalar)
    (status : SESyncStatus) (trL gap fxhat subopt : Scalar) : SESyncResult :=
  { Yopt := Yopt
    SDPval := sdp
    gradnorm := gnorm
    trLambda := trL
    duality_gap := gap
    Fxhat := fxhat
    suboptimality_bound := subopt
    function_values := acc.fvals.reverse
    gradient_norms := acc.gnorms.reverse
    preconditioned_gradient_norms := acc.pgnorms.reverse
    Hessian_vector_products := acc.hvps.reverse
    elapsed_optimization_times := acc.times.reverse
    escape_direction_curvatures := acc.curvatures.reverse
    LOBPCG_iters := acc.lobpcg.reverse
    verification_times := acc.vtimes.reverse
    iterates := acc.iters.reverse
    visited_ranks := acc.ranks.reverse
    status := status }

/-- Modelled from the spec: the Riemannian Staircase state machine of
section 4.5, absent from the repository sources.  At each rank it runs TNT
to a critical point, appends the level statistics, propagates an elapsed
TNT time budget, samples the clock at the certification checkpoint, runs
the certifier, and either finishes with GlobalOpt (computing the corrected
dual trace, duality gap, rounded objective and suboptimality bound),
finishes with EigImprecision, or, on a valid escape certificate, records
the escape curvature, stops with MaxRank when the incremented rank exceeds
rmax, and otherwise invokes the saddle-escape module at the incremented
rank, stopping with SaddlePoint when the escape fails and recursing at the
next rank when it succeeds.  The fuel argument counts the remaining rank
levels; a run starts it at rmax + 1 - r0 so that fuel never reaches zero
before the rank-bound check fires. -/
def staircaseAux (P : ProblemOracle) (opts : SESyncOpts) (fuel tick r : ℕ)
    (Y : Iterate) (acc : StairAcc) : SESyncResult × List Scalar :=
  match fuel with
  | 0 =>
    (stairFinish acc Y (P.F Y) (P.gradnorm Y) SESyncStatus.MaxRank 0 0 0 0,
      acc.mlog)
  | fuel + 1 =>
    let t := (TNT P opts tick Y).1
    let acc1 := stairPushLevel opts r t (TNT P opts tick Y).2 acc
    if t.reason = TNTReason.elapsedTime then
      (stairFinish acc1 t.Y t.Fval t.gradnorm SESyncStatus.ElapsedTime 0 0 0 0,
        acc1.mlog)
    else if opts.max_computation_time ≤ P.clock t.tick then
      (stairFinish acc1 t.Y t.Fval t.gradnorm SESyncStatus.ElapsedTime 0 0 0 0,
        acc1.mlog)
    else
      let e := P.eig r
      let acc2 := { acc1 with
        lobpcg := e.iterations :: acc1.lobpcg
        vtimes := P.clock t.tick :: acc1.vtimes }
      match certify opts.min_eig_num_tol e with
      | CertOutcome.certified =>
        (stairFinish acc2 t.Y t.Fval t.gradnorm SESyncStatus.GlobalOpt
          (trLambdaOf P t.Fval e.lambdaMin)
          (t.Fval - trLambdaOf P t.Fval e.lambdaMin)
          (P.roundedCost t.Y)
          (P.roundedCost t.Y - trLambdaOf P t.Fval e.lambdaMin),
          acc2.mlog)
      | CertOutcome.imprecise =>
        (stairFinish acc2 t.Y t.Fval t.gradnorm SESyncStatus.EigImprecision
          0 0 0 0, acc2.mlog)
      | CertOutcome.escape =>
        let acc3 := { acc2 with curvatures := e.lambdaMin :: acc2.curvatures }
        if opts.rmax < r + 1 then
          (stairFinish acc3 t.Y t.Fval t.gradnorm SESyncStatus.MaxRank
            0 0 0 0, acc3.mlog)
        else
          match escape_saddle P (r + 1) t.Y e.lambdaMin e.vecIdx
            opts.grad_norm_tol opts.preconditioned_grad_norm_tol with
          | none =>
            (stairFinish acc3 t.Y t.Fval t.gradnorm SESyncStatus.SaddlePoint
              0 0 0 0, acc3.mlog)
          | some Yplus =>
            staircaseAux P opts fuel (t.tick + 1) (r + 1) Yplus acc3

/-- Descriptive configuration errors of the fail-fast validation: one
constructor per invalid-tolerance clause of the error-handling taxonomy. -/
inductive ConfigError where
  | thetaNotPositive
  | kappaNotInUnitInterval
  | r0BelowDimensionPlusOne
  | rmaxBelowR0
deriving DecidableEq, Repr

/-- Modelled from the spec: the fail-fast configuration validation of the
error-handling taxonomy of section 7, absent from the repository sources.
It rejects a nonpositive theta, a kappa outside the open unit interval, an
initial rank below d + 1, and a maximum rank below the initial rank. -/
def checkOpts (d : ℕ) (opts : SESyncOpts) : Option ConfigError :=
  if opts.STPCG_theta ≤ 0 then some ConfigError.thetaNotPositive
  else if opts.STPCG_kappa ≤ 0 ∨ 1 ≤ opts.STPCG_kappa then
    some ConfigError.kappaNotInUnitInterval
  else if opts.r0 < d + 1 then some ConfigError.r0BelowDimensionPlusOne
  else if opts.rmax < opts.r0 then some ConfigError.rmaxBelowR0
  else none

/-- Modelled from the spec: the SESync entry point declared in SESync.h,
whose body is absent from the repository sources.  The options are
validated first and an invalid configuration fails with a descriptive
error before any numerical work; otherwise the staircase driver runs from
rank r0 at the supplied initial iterate, or at the externally initialized
one when none is supplied.  The second component of the returned pair is
the chronological monitor-observation log of the whole run. -/
def SESyncRun (P : ProblemOracle) (opts : SESyncOpts) (Y0 : Option Iterate) :
    Except ConfigError (SESyncResult × List Scalar) :=
  match checkOpts P.d opts with
  | some e => Except.error e
  | none =>
    Except.ok (staircaseAux P opts (opts.rmax + 1 - opts.r0) 0 opts.r0
      (match Y0 with
       | some Y => Y
       | none => P.initial opts.r0)
      emptyStairAcc)

/-- Invariant of the staircase accumulator at current rank r: the ghost rank
log is strictly decreasing in reverse order, bounded in the configured rank
interval, below the current rank, and anchored at r0; all per-level logs
have one entry per visited rank; iterate logs obey the log_iterates flag;
and every recorded function-value trace is nonempty and non-increasing. -/
def stairAccInv (opts : SESyncOpts) (r : ℕ) (acc : StairAcc) : Prop :=
  List.Chain' (fun a b : ℕ => b < a) acc.ranks ∧
  (∀ x ∈ acc.ranks, opts.r0 ≤ x ∧ x ≤ opts.rmax) ∧
  (∀ x ∈ acc.ranks.head?, x < r) ∧
  (acc.ranks.getLast? = some opts.r0 ∨ (acc.ranks = [] ∧ r = opts.r0)) ∧
  acc.fvals.length = acc.ranks.length ∧
  acc.gnorms.length = acc.ranks.length ∧
  acc.pgnorms.length = acc.ranks.length ∧
  acc.times.length = acc.ranks.length ∧
  (opts.log_iterates = true → acc.iters.length = acc.ranks.length) ∧
  (opts.log_iterates = false → acc.iters = []) ∧
  (∀ l ∈ acc.fvals, List.Chain' (fun a b : Scalar => b ≤ a) l ∧ l ≠ []) ∧
  acc.hvps.length = acc.ranks.length ∧
  (∀ l ∈ acc.hvps, l ≠ []) ∧
  acc.lobpcg.length = acc.ranks.length ∧
  acc.vtimes.length = acc.lobpcg.length ∧
  acc.curvatures.length = acc.ranks.length

/-- Conclusions of the staircase analysis on a finished run result. -/
structure StairConc (P : ProblemOracle) (opts : SESyncOpts)
    (res : SESyncResult) : Prop where
  globalOptCert : res.status = SESyncStatus.GlobalOpt →
    ∃ rr, opts.r0 ≤ rr ∧ rr ≤ opts.rmax ∧
      certify opts.min_eig_num_tol (P.eig rr) = CertOutcome.certified ∧
      -opts.min_eig_num_tol ≤ (P.eig rr).lambdaMin ∧
      res.trLambda = trLambdaOf P res.SDPval (P.eig rr).lambdaMin
  globalOptGap : res.status = SESyncStatus.GlobalOpt →
    res.duality_gap = res.SDPval - res.trLambda ∧
    -opts.min_eig_num_tol ≤ res.duality_gap
  ranksChain : List.Chain' (fun a b : ℕ => a < b) res.visited_ranks
  ranksHead : res.visited_ranks.head? = some opts.r0
  ranksMem : ∀ x ∈ res.visited_ranks, opts.r0 ≤ x ∧ x ≤ opts.rmax
  maxRankLast : res.status = SESyncStatus.MaxRank →
    res.visited_ranks.getLast? = some opts.rmax ∧
    certify opts.min_eig_num_tol (P.eig opts.rmax) = CertOutcome.escape
  fvalsMono : ∀ l ∈ res.function_values,
    List.Chain' (fun a b : Scalar => b ≤ a) l ∧ l ≠ []
  fvalsNe : res.function_values ≠ []
  lenFv : res.function_values.length = res.visited_ranks.length
  lenG : res.gradient_norms.length = res.visited_ranks.length
  lenPG : res.preconditioned_gradient_norms.length = res.visited_ranks.length
  lenT : res.elapsed_optimization_times.length = res.visited_ranks.length
  itersNone : opts.log_iterates = false → res.iterates = []
  itersLen : opts.log_iterates = true →
    res.iterates.length = res.visited_ranks.length
  lenHvp : res.Hessian_vector_products.length = res.visited_ranks.length
  hvpsNe : ∀ l ∈ res.Hessian_vector_products, l ≠ []
  lenVt : res.verification_times.length = res.LOBPCG_iters.length
  lobFull : res.status ≠ SESyncStatus.ElapsedTime →
    res.LOBPCG_iters.length = res.visited_ranks.length
  lobBounds : res.visited_ranks.length - 1 ≤ res.LOBPCG_iters.length ∧
    res.LOBPCG_iters.length ≤ res.visited_ranks.length
  curvBounds :
    res.visited_ranks.length - 1 ≤ res.escape_direction_curvatures.length ∧
    res.escape_direction_curvatures.length ≤ res.visited_ranks.length

/-- Example problem oracle for witnesses: a 2-dimensional problem with one
pose whose objective and gradients vanish everywhere, so TNT converges
immediately and the certifier certifies with eigenvalue zero. -/
def exOracle : ProblemOracle where
  d := 2
  n := 1
  F := fun _ => 0
  gradnorm := fun _ => 0
  pgradnorm := fun _ => 0
  subsolve := fun Y _ => ⟨Y, 0, 0, 1⟩
  clock := fun _ => 0
  eig := fun _ => ⟨0, true, 3, 0⟩
  lsCand := fun r i => ⟨r, i⟩
  initial := fun r => ⟨r, 0⟩
  roundedCost := fun _ => 0
  initialRadius := 1

/-- Small option set used by witnesses: few TNT iterations and a short rank
interval, otherwise the header defaults. -/
def wopts : SESyncOpts := { max_iterations := 3, r0 := 3, rmax := 4 }

/-- An invalid option set used by witnesses: theta is zero, violating the
positivity requirement. -/
def badOpts : SESyncOpts := { STPCG_theta := 0 }

/-- The accumulator with which the staircase driver continues at the next
rank level after a successful saddle escape: the level statistics at rank r
are pushed, then the LOBPCG iteration count and the escape curvature are
recorded. -/
def stairEscAcc (P : ProblemOracle) (opts : SESyncOpts) (tick r : ℕ)
    (Y : Iterate) (acc : StairAcc) : StairAcc :=
  let acc1 := stairPushLevel opts r (TNT P opts tick Y).1 (TNT P opts tick Y).2 acc
  let acc2 := { acc1 with
    lobpcg := (P.eig r).iterations :: acc1.lobpcg
    vtimes := P.clock (TNT P opts tick Y).1.tick :: acc1.vtimes }
  { acc2 with curvatures := (P.eig r).lambdaMin :: acc2.curvatures }

/-! ## Theorems -/

/-- Characterization of the tCG inner loop: the stop iteration lies within
the budget, no stopping condition holds strictly before it, and the stopping
reason records exactly which condition fired there. -/
theorem tCGAux_char (P : TCGInput) (thr : Scalar) (fuel : ℕ) :
    ∀ k : ℕ,
      k ≤ (tCGAux P thr fuel k).stopIter ∧
      (tCGAux P thr fuel k).stopIter ≤ k + fuel ∧
      (∀ j, k ≤ j → j < (tCGAux P thr fuel k).stopIter → ¬ tCGstops P thr j) ∧
      ((tCGAux P thr fuel k).reason = TCGReason.negativeCurvature →
        (P.iter (tCGAux P thr fuel k).stopIter).negcurv = true ∧
        (tCGAux P thr fuel k).onBoundary = true) ∧
      ((tCGAux P thr fuel k).reason = TCGReason.exceededTrustRegion →
        (P.iter (tCGAux P thr fuel k).stopIter).negcurv = false ∧
        (P.iter (tCGAux P thr fuel k).stopIter).exceedsTR = true ∧
        (tCGAux P thr fuel k).onBoundary = true) ∧
      ((tCGAux P thr fuel k).reason = TCGReason.kappaTheta →
        (P.iter (tCGAux P thr fuel k).stopIter).negcurv = false ∧
        (P.iter (tCGAux P thr fuel k).stopIter).exceedsTR = false ∧
        (P.iter (tCGAux P thr fuel k).stopIter).rnormNext ≤ thr) ∧
      ((tCGAux P thr fuel k).reason = TCGReason.maxIterations →
        (tCGAux P thr fuel k).stopIter = k + fuel) := by
  induction fuel with
  | zero =>
    intro k
    have e : tCGAux P thr 0 k = ⟨k, TCGReason.maxIterations, false⟩ := rfl
    rw [e]
    dsimp only
    refine ⟨le_refl k, by omega, ?_, by simp, by simp, by simp, by simp⟩
    intro j hkj hjk
    omega
  | succ fuel ih =>
    intro k
    by_cases h1 : (P.iter k).negcurv = true
    · have e : tCGAux P thr (fuel + 1) k = ⟨k, TCGReason.negativeCurvature, true⟩ := by
        simp only [tCGAux]
        rw [if_pos h1]
      rw [e]
      dsimp only
      refine ⟨le_refl k, by omega, ?_, ?_, by simp, by simp, by simp⟩
      · intro j hkj hjk; omega
      · intro _; exact ⟨h1, rfl⟩
    · by_cases h2 : (P.iter k).exceedsTR = true
      · have e : tCGAux P thr (fuel + 1) k = ⟨k, TCGReason.exceededTrustRegion, true⟩ := by
          simp only [tCGAux]
          rw [if_neg h1, if_pos h2]
        rw [e]
        dsimp only
        refine ⟨le_refl k, by omega, ?_, by simp, ?_, by simp, by simp⟩
        · intro j hkj hjk; omega
        · intro _
          exact ⟨Bool.not_eq_true _ |>.mp h1, h2, rfl⟩
      · by_cases h3 : (P.iter k).rnormNext ≤ thr
        · have e : tCGAux P thr (fuel + 1) k = ⟨k, TCGReason.kappaTheta, false⟩ := by
            simp only [tCGAux]
            rw [if_neg h1, if_neg h2, if_pos h3]
          rw [e]
          dsimp only
          refine ⟨le_refl k, by omega, ?_, by simp, by simp, ?_, by simp⟩
          · intro j hkj hjk; omega
          · intro _
            exact ⟨Bool.not_eq_true _ |>.mp h1, Bool.not_eq_true _ |>.mp h2, h3⟩
        · have e : tCGAux P thr (fuel + 1) k = tCGAux P thr fuel (k + 1) := by
            simp only [tCGAux]
            rw [if_neg h1, if_neg h2, if_neg h3]
          obtain ⟨ha, hb, hc, hd, he, hf, hg⟩ := ih (k + 1)
          rw [e]
          refine ⟨by omega, by omega, ?_, hd, he, hf, by intro hmax; have := hg hmax; omega⟩
          intro j hkj hjlt
          rcases Nat.eq_or_lt_of_le hkj with hkj | hkj
          · subst hkj
            intro hs
            rcases hs with hs | hs | hs
            · exact h1 hs
            · exact h2 hs
            · exact h3 hs
          · exact hc j hkj hjlt

/-- C1: the truncated preconditioned conjugate-gradient subsolver terminates
exactly when one of the four stopping clauses holds: the preconditioned
residual norm falls to at most the initial norm times min(kappa, the theta
power of the initial norm); a negative-curvature direction is detected, in
which case the returned direction is a trust-region boundary point; the
iterate would leave the trust region, again returning the boundary point; or
the max_tCG_iterations budget is exhausted.  No stopping clause holds at any
earlier inner iteration. -/
theorem C1_tCG_stopping_rule (P : TCGInput) (kappa : Scalar) (N : ℕ)
    (hk0 : 0 < kappa) (hk1 : kappa < 1) :
    (∀ j, j < (tCG P kappa N).stopIter → ¬ tCGstops P (tCGthreshold P kappa) j) ∧
    (tCG P kappa N).stopIter ≤ N ∧
    ((tCG P kappa N).reason = TCGReason.negativeCurvature →
      (P.iter (tCG P kappa N).stopIter).negcurv = true ∧
      (tCG P kappa N).onBoundary = true) ∧
    ((tCG P kappa N).reason = TCGReason.exceededTrustRegion →
      (P.iter (tCG P kappa N).stopIter).negcurv = false ∧
      (P.iter (tCG P kappa N).stopIter).exceedsTR = true ∧
      (tCG P kappa N).onBoundary = true) ∧
    ((tCG P kappa N).reason = TCGReason.kappaTheta →
      (P.iter (tCG P kappa N).stopIter).negcurv = false ∧
      (P.iter (tCG P kappa N).stopIter).exceedsTR = false ∧
      (P.iter (tCG P kappa N).stopIter).rnormNext ≤
        P.rnorm0 * min kappa P.rnorm0PowTheta) ∧
    ((tCG P kappa N).reason = TCGReason.maxIterations →
      (tCG P kappa N).stopIter = N ∧
      ∀ j, j < N → ¬ tCGstops P (tCGthreshold P kappa) j) := by
  obtain ⟨ha, hb, hc, hd, he, hf, hg⟩ := tCGAux_char P (tCGthreshold P kappa) N 0
  refine ⟨fun j hj => hc j (Nat.zero_le j) hj, by simpa using hb, hd, he, ?_, ?_⟩
  · intro h
    simpa [tCGthreshold] using hf h
  · intro h
    have hstop := hg h
    simp only [Nat.zero_add] at hstop
    exact ⟨hstop, fun j hj => hc j (Nat.zero_le j) (by simpa [tCG, hstop] using hj)⟩

/-- Witness for C1 at a concrete input: kappa is one tenth, the budget is 7,
and the example stream stops with negative curvature. -/
theorem C1_tCG_stopping_rule_witness :
    (∀ j, j < (tCG tCGexample (1/10) 7).stopIter →
      ¬ tCGstops tCGexample (tCGthreshold tCGexample (1/10)) j) ∧
    (tCG tCGexample (1/10) 7).stopIter ≤ 7 ∧
    ((tCG tCGexample (1/10) 7).reason = TCGReason.negativeCurvature →
      (tCGexample.iter (tCG tCGexample (1/10) 7).stopIter).negcurv = true ∧
      (tCG tCGexample (1/10) 7).onBoundary = true) ∧
    ((tCG tCGexample (1/10) 7).reason = TCGReason.exceededTrustRegion →
      (tCGexample.iter (tCG tCGexample (1/10) 7).stopIter).negcurv = false ∧
      (tCGexample.iter (tCG tCGexample (1/10) 7).stopIter).exceedsTR = true ∧
      (tCG tCGexample (1/10) 7).onBoundary = true) ∧
    ((tCG tCGexample (1/10) 7).reason = TCGReason.kappaTheta →
      (tCGexample.iter (tCG tCGexample (1/10) 7).stopIter).negcurv = false ∧
      (tCGexample.iter (tCG tCGexample (1/10) 7).stopIter).exceedsTR = false ∧
      (tCGexample.iter (tCG tCGexample (1/10) 7).stopIter).rnormNext ≤
        tCGexample.rnorm0 * min (1/10) tCGexample.rnorm0PowTheta) ∧
    ((tCG tCGexample (1/10) 7).reason = TCGReason.maxIterations →
      (tCG tCGexample (1/10) 7).stopIter = 7 ∧
      ∀ j, j < 7 → ¬ tCGstops tCGexample (tCGthreshold tCGexample (1/10)) j) :=
  C1_tCG_stopping_rule tCGexample (1/10) 7 (by norm_num) (by norm_num)

/-- The finish step of the TNT loop turns the accumulator invariant into the
conclusion on the returned core and monitor log. -/
theorem TNTfinish_conc (P : ProblemOracle) (opts : SESyncOpts) (Y : Iterate)
    (acc : TNTAcc) (reason : TNTReason) (tick : ℕ)
    (h : TNTinv P opts Y acc) :
    TNTconc opts (TNTfinish P Y acc reason tick, acc.mlogRev.reverse) := by
  obtain ⟨h1, h2, h3, h4, h5, h6, h7, h8, h9, h10, h11⟩ := h
  refine ⟨?_, ?_, ?_, ?_, ?_, ?_, ?_, ?_, ?_, ?_⟩
  · exact List.chain'_reverse.mpr h2
  · simpa [TNTfinish] using h3
  · simpa [TNTfinish] using h4
  · simpa [TNTfinish] using h5
  · simpa [TNTfinish] using h6
  · intro hl
    simpa [TNTfinish] using h7 hl
  · intro hl
    simpa [TNTfinish] using h8 hl
  · intro f hf
    simpa [TNTfinish] using h9 f hf
  · intro hf
    simpa [TNTfinish] using h10 hf
  · simpa [TNTfinish] using h11

/-- The monitor update preserves the TNT accumulator invariant. -/
theorem TNTinv_mon (P : ProblemOracle) (opts : SESyncOpts) (Y : Iterate)
    (acc : TNTAcc) (dh : ℕ) (h : TNTinv P opts Y acc) :
    TNTinv P opts Y (TNTaccMon opts.user_function Y (P.F Y) dh acc) := by
  obtain ⟨g1, g2, g3, g4, g5, g6, g7, g8, g9, g10, g11⟩ := h
  refine ⟨g1, g2, g3, g4, g5, g6, g7, g8, ?_, ?_, g11⟩
  · intro f hf
    simp [TNTaccMon, monitorObs, hf, g9 f hf]
  · intro hf
    simp [TNTaccMon, monitorObs, hf, g10 hf]

/-- An accepted-step push preserves the TNT accumulator invariant when the
pushed objective value does not exceed the current one. -/
theorem TNTinv_push (P : ProblemOracle) (opts : SESyncOpts) (Y : Iterate)
    (acc : TNTAcc) (Yplus : Iterate) (gn pgn tclock : Scalar)
    (h : TNTinv P opts Y acc) (hle : P.F Yplus ≤ P.F Y) :
    TNTinv P opts Yplus
      (TNTaccPush opts.log_iterates (P.F Yplus) gn pgn tclock Yplus acc) := by
  obtain ⟨g1, g2, g3, g4, g5, g6, g7, g8, g9, g10, g11⟩ := h
  refine ⟨rfl, ?_, by simp [TNTaccPush], ?_, ?_, ?_, ?_, ?_, ?_, ?_,
    by simp [TNTaccPush, g11]⟩
  · show List.Chain' _ (P.F Yplus :: acc.fvalsRev)
    rw [List.chain'_cons']
    refine ⟨?_, g2⟩
    intro y hy
    rw [g1] at hy
    simp only [Option.mem_def, Option.some.injEq] at hy
    subst hy
    exact hle
  · simp [TNTaccPush, g4]
  · simp [TNTaccPush, g5]
  · simp [TNTaccPush, g6]
  · intro hl
    simp [TNTaccPush, hl, g7 hl]
  · intro hl
    simp [TNTaccPush, hl, g8 hl]
  · intro f hf
    simpa [TNTaccPush] using g9 f hf
  · intro hf
    simpa [TNTaccPush] using g10 hf

/-- An accepted step never increases the objective value: the acceptance
test requires the actual decrease to be at least TReta1 times the
nonnegative predicted decrease. -/
theorem accept_decrease (Fv Fplus pred : Scalar) (hp : 0 ≤ pred)
    (hle : TReta1 * pred ≤ Fv - Fplus) : Fplus ≤ Fv := by
  have hnn : 0 ≤ TReta1 * pred := mul_nonneg (by norm_num [TReta1]) hp
  linarith

/-- Main invariant preservation of the TNT outer loop: from any accumulator
satisfying the invariant, the loop result satisfies the conclusion. -/
theorem TNTloop_conc (P : ProblemOracle) (opts : SESyncOpts) (fuel : ℕ) :
    ∀ (tick : ℕ) (radius : Scalar) (Y : Iterate) (acc : TNTAcc),
      TNTinv P opts Y acc →
      TNTconc opts (TNTloop P opts fuel tick radius Y acc) := by
  induction fuel with
  | zero =>
    intro tick radius Y acc h
    rw [TNTloop]
    by_cases h1 : opts.max_computation_time ≤ P.clock tick
    · rw [if_pos h1]
      exact TNTfinish_conc P opts Y acc TNTReason.elapsedTime tick h
    · rw [if_neg h1]
      by_cases h2 : P.gradnorm Y ≤ opts.grad_norm_tol
      · rw [if_pos h2]
        exact TNTfinish_conc P opts Y acc TNTReason.gradNorm tick h
      · rw [if_neg h2]
        by_cases h3 : P.pgradnorm Y ≤ opts.preconditioned_grad_norm_tol
        · rw [if_pos h3]
          exact TNTfinish_conc P opts Y acc TNTReason.preconGradNorm tick h
        · rw [if_neg h3]
          exact TNTfinish_conc P opts Y acc TNTReason.maxIterations tick h
  | succ fuel ih =>
    intro tick radius Y acc h
    rw [TNTloop]
    by_cases h1 : opts.max_computation_time ≤ P.clock tick
    · rw [if_pos h1]
      exact TNTfinish_conc P opts Y acc TNTReason.elapsedTime tick h
    · rw [if_neg h1]
      by_cases h2 : P.gradnorm Y ≤ opts.grad_norm_tol
      · rw [if_pos h2]
        exact TNTfinish_conc P opts Y acc TNTReason.gradNorm tick h
      · rw [if_neg h2]
        by_cases h3 : P.pgradnorm Y ≤ opts.preconditioned_grad_norm_tol
        · rw [if_pos h3]
          exact TNTfinish_conc P opts Y acc TNTReason.preconGradNorm tick h
        · rw [if_neg h3]
          show TNTconc opts _
          dsimp only
          have hinv1 := TNTinv_mon P opts Y acc
            (P.subsolve Y radius).hessvec h
          by_cases hacc : 0 ≤ (P.subsolve Y radius).pred ∧
              TReta1 * (P.subsolve Y radius).pred ≤
                P.F Y - P.F (P.subsolve Y radius).Yplus
          · rw [if_pos hacc]
            have hFle : P.F (P.subsolve Y radius).Yplus ≤ P.F Y :=
              accept_decrease _ _ _ hacc.1 hacc.2
            have hinv2 := TNTinv_push P opts Y
              (TNTaccMon opts.user_function Y (P.F Y)
                (P.subsolve Y radius).hessvec acc)
              (P.subsolve Y radius).Yplus
              (P.gradnorm (P.subsolve Y radius).Yplus)
              (P.pgradnorm (P.subsolve Y radius).Yplus)
              (P.clock tick) hinv1 hFle
            by_cases h4 : P.F Y - P.F (P.subsolve Y radius).Yplus ≤
                opts.rel_func_decrease_tol * |P.F Y|
            · rw [if_pos h4]
              exact TNTfinish_conc P opts _ _ TNTReason.relFuncDecrease
                (tick + 1) hinv2
            · rw [if_neg h4]
              by_cases h5 : (P.subsolve Y radius).stepnorm ≤ opts.stepsize_tol
              · rw [if_pos h5]
                exact TNTfinish_conc P opts _ _ TNTReason.stepsize
                  (tick + 1) hinv2
              · rw [if_neg h5]
                exact ih (tick + 1) (TRgrowth * radius) _ _ hinv2
          · rw [if_neg hacc]
            exact ih (tick + 1) (TRshrink * radius) Y _ hinv1

/-- The TNT core result is independent of the configured monitor function:
runs whose options differ only in the user_function field, from accumulators
that agree on every field except the monitor log, produce the same core
(iterate, scalars, statistics traces, convergence reason and clock cursor).
The monitor is invoked purely for observation. -/
theorem TNTloop_monfree (P : ProblemOracle) (opts : SESyncOpts)
    (mon2 : Option (Iterate → Scalar → Scalar)) (fuel : ℕ) :
    ∀ (tick : ℕ) (radius : Scalar) (Y : Iterate) (acc accB : TNTAcc),
      acc.fvalsRev = accB.fvalsRev → acc.gnormsRev = accB.gnormsRev →
      acc.pgnormsRev = accB.pgnormsRev → acc.timesRev = accB.timesRev →
      acc.iteratesRev = accB.iteratesRev → acc.numOuter = accB.numOuter →
      acc.hvpsRev = accB.hvpsRev → acc.hvpCount = accB.hvpCount →
      (TNTloop P opts fuel tick radius Y acc).1 =
        (TNTloop P { opts with user_function := mon2 }
          fuel tick radius Y accB).1 := by
  induction fuel with
  | zero =>
    intro tick radius Y acc accB e1 e2 e3 e4 e5 e6 e7 e8
    rw [TNTloop, TNTloop]
    dsimp only
    by_cases h1 : opts.max_computation_time ≤ P.clock tick
    · rw [if_pos h1, if_pos h1]
      simp [TNTfinish, e1, e2, e3, e4, e5, e6, e7, e8]
    · rw [if_neg h1, if_neg h1]
      by_cases h2 : P.gradnorm Y ≤ opts.grad_norm_tol
      · rw [if_pos h2, if_pos h2]
        simp [TNTfinish, e1, e2, e3, e4, e5, e6, e7, e8]
      · rw [if_neg h2, if_neg h2]
        by_cases h3 : P.pgradnorm Y ≤ opts.preconditioned_grad_norm_tol
        · rw [if_pos h3, if_pos h3]
          simp [TNTfinish, e1, e2, e3, e4, e5, e6, e7, e8]
        · rw [if_neg h3, if_neg h3]
          simp [TNTfinish, e1, e2, e3, e4, e5, e6, e7, e8]
  | succ fuel ih =>
    intro tick radius Y acc accB e1 e2 e3 e4 e5 e6 e7 e8
    rw [TNTloop, TNTloop]
    dsimp only
    by_cases h1 : opts.max_computation_time ≤ P.clock tick
    · rw [if_pos h1, if_pos h1]
      simp [TNTfinish, e1, e2, e3, e4, e5, e6, e7, e8]
    · rw [if_neg h1, if_neg h1]
      by_cases h2 : P.gradnorm Y ≤ opts.grad_norm_tol
      · rw [if_pos h2, if_pos h2]
        simp [TNTfinish, e1, e2, e3, e4, e5, e6, e7, e8]
      · rw [if_neg h2, if_neg h2]
        by_cases h3 : P.pgradnorm Y ≤ opts.preconditioned_grad_norm_tol
        · rw [if_pos h3, if_pos h3]
          simp [TNTfinish, e1, e2, e3, e4, e5, e6, e7, e8]
        · rw [if_neg h3, if_neg h3]
          by_cases hacc : 0 ≤ (P.subsolve Y radius).pred ∧
              TReta1 * (P.subsolve Y radius).pred ≤
                P.F Y - P.F (P.subsolve Y radius).Yplus
          · rw [if_pos hacc, if_pos hacc]
            by_cases h4 : P.F Y - P.F (P.subsolve Y radius).Yplus ≤
                opts.rel_func_decrease_tol * |P.F Y|
            · rw [if_pos h4, if_pos h4]
              simp [TNTfinish, TNTaccPush, TNTaccMon, e1, e2, e3, e4, e5, e6, e7, e8]
            · rw [if_neg h4, if_neg h4]
              by_cases h5 : (P.subsolve Y radius).stepnorm ≤ opts.stepsize_tol
              · rw [if_pos h5, if_pos h5]
                simp [TNTfinish, TNTaccPush, TNTaccMon, e1, e2, e3, e4, e5, e6, e7, e8]
              · rw [if_neg h5, if_neg h5]
                exact ih (tick + 1) (TRgrowth * radius) _ _ _
                  (by simp [TNTaccPush, TNTaccMon, e1])
                  (by simp [TNTaccPush, TNTaccMon, e2])
                  (by simp [TNTaccPush, TNTaccMon, e3])
                  (by simp [TNTaccPush, TNTaccMon, e4])
                  (by simp [TNTaccPush, TNTaccMon, e5])
                  (by simp [TNTaccPush, TNTaccMon, e6])
                  (by simp [TNTaccPush, TNTaccMon, e7, e8])
                  (by simp [TNTaccPush, TNTaccMon, e8])
          · rw [if_neg hacc, if_neg hacc]
            exact ih (tick + 1) (TRshrink * radius) _ _ _
              (by simp [TNTaccMon, e1]) (by simp [TNTaccMon, e2])
              (by simp [TNTaccMon, e3]) (by simp [TNTaccMon, e4])
              (by simp [TNTaccMon, e5]) (by simp [TNTaccMon, e6])
              (by simp [TNTaccMon, e7]) (by simp [TNTaccMon, e8])

/-- The line search only returns candidates satisfying both strict
acceptance criteria. -/
theorem escapeLSAux_sound (P : ProblemOracle) (r : ℕ) (FY gradTol : Scalar)
    (fuel : ℕ) :
    ∀ (i : ℕ) (Yplus : Iterate),
      escapeLSAux P r FY gradTol fuel i = some Yplus →
      P.F Yplus < FY ∧ gradTol < P.gradnorm Yplus := by
  induction fuel with
  | zero =>
    intro i Yplus hsome
    simp [escapeLSAux] at hsome
  | succ fuel ih =>
    intro i Yplus hsome
    rw [escapeLSAux] at hsome
    by_cases hcond : P.F (P.lsCand r i) < FY ∧ gradTol < P.gradnorm (P.lsCand r i)
    · rw [if_pos hcond] at hsome
      obtain rfl : P.lsCand r i = Yplus := by simpa using hsome
      exact hcond
    · rw [if_neg hcond] at hsome
      exact ih (i + 1) Yplus hsome

/-- The certifier certifies exactly when the computed minimum eigenvalue is
numerically nonnegative. -/
theorem certify_certified_iff (tol : Scalar) (e : EigResult) :
    certify tol e = CertOutcome.certified ↔ -tol ≤ e.lambdaMin := by
  unfold certify
  split_ifs with h1 h2
  · simp [h1]
  · simp [h1]
  · simp [h1]

/-- The certifier reports imprecision exactly when the computed minimum
eigenvalue is below minus the tolerance and LOBPCG did not converge. -/
theorem certify_imprecise_iff (tol : Scalar) (e : EigResult) :
    certify tol e = CertOutcome.imprecise ↔
      e.lambdaMin < -tol ∧ e.converged = false := by
  unfold certify
  split_ifs with h1 h2
  · simp only [reduceCtorEq, false_iff, not_and]
    intro h
    exact absurd h1 (not_le.mpr h)
  · simp [not_le.mp h1, h2]
  · simp only [reduceCtorEq, false_iff, not_and]
    intro _
    exact h2

/-- The certifier returns a valid escape certificate exactly when the
computed minimum eigenvalue is below minus the tolerance and LOBPCG
converged. -/
theorem certify_escape_iff (tol : Scalar) (e : EigResult) :
    certify tol e = CertOutcome.escape ↔
      e.lambdaMin < -tol ∧ e.converged = true := by
  unfold certify
  split_ifs with h1 h2
  · simp only [reduceCtorEq, false_iff, not_and]
    intro h
    exact absurd h1 (not_le.mpr h)
  · simp [h2, not_le.mp h1]
  · simp only [not_le.mp h1, true_and]
    simp at h2
    simp [h2]

/-- The initial TNT accumulator satisfies the TNT loop invariant. -/
theorem TNTinv_init (P : ProblemOracle) (opts : SESyncOpts) (Y0 : Iterate)
    (tick : ℕ) : TNTinv P opts Y0 (TNTinitAcc P opts Y0 tick) := by
  refine ⟨rfl, ?_, by simp [TNTinitAcc], by simp [TNTinitAcc],
    by simp [TNTinitAcc], by simp [TNTinitAcc], ?_, ?_, ?_, ?_,
    by simp [TNTinitAcc]⟩
  · exact List.chain'_singleton _
  · intro hl
    simp [TNTinitAcc, hl]
  · intro hl
    simp [TNTinitAcc, hl]
  · intro f hf
    simp [TNTinitAcc]
  · intro hf
    simp [TNTinitAcc]

/-- Every TNT run satisfies the TNT conclusion. -/
theorem TNT_conc (P : ProblemOracle) (opts : SESyncOpts) (tick : ℕ)
    (Y0 : Iterate) : TNTconc opts (TNT P opts tick Y0) :=
  TNTloop_conc P opts opts.max_iterations tick P.initialRadius Y0
    (TNTinitAcc P opts Y0 tick) (TNTinv_init P opts Y0 tick)

/-- The duality gap induced by the lambda-corrected dual trace is
nonnegative, hence at least minus any nonnegative tolerance. -/
theorem gap_ge (P : ProblemOracle) (sdp lm tol : Scalar) (htol : 0 ≤ tol) :
    -tol ≤ sdp - trLambdaOf P sdp lm := by
  unfold trLambdaOf lambdaHat
  have h1 : (0 : Scalar) ≤ ((P.n * P.d : ℕ) : Scalar) := Nat.cast_nonneg _
  have h2 : min lm 0 ≤ 0 := min_le_right _ _
  have h3 : ((P.n * P.d : ℕ) : Scalar) * min lm 0 ≤ 0 :=
    mul_nonpos_of_nonneg_of_nonpos h1 h2
  linarith

/-- Master analysis of the staircase driver: from any accumulator
satisfying the staircase invariant at a rank between r0 and rmax, with the
remaining-level fuel matching the rank interval, the driver result
satisfies all staircase conclusions. -/
theorem staircase_conc (P : ProblemOracle) (opts : SESyncOpts)
    (htol : 0 ≤ opts.min_eig_num_tol) (fuel : ℕ) :
    ∀ (tick r : ℕ) (Y : Iterate) (acc : StairAcc),
      fuel + r = opts.rmax + 1 →
      opts.r0 ≤ r →
      r ≤ opts.rmax →
      stairAccInv opts r acc →
      StairConc P opts (staircaseAux P opts fuel tick r Y acc).1 := by
  induction fuel with
  | zero =>
    intro tick r Y acc hfr hr0 hrm hinv
    omega
  | succ fuel ih =>
    intro tick r Y acc hfr hr0 hrm hinv
    obtain ⟨i1, i2, i3, i4, i5, i6, i7, i8, i9, i10, i11, i12, i13, i14,
      i15, i16⟩ := hinv
    obtain ⟨c1, c2, c3, c4, c5, c6, c7, c8, c9, c10⟩ := TNT_conc P opts tick Y
    have hrchain : List.Chain' (fun a b : ℕ => b < a) (r :: acc.ranks) := by
      rw [List.chain'_cons']
      exact ⟨fun y hy => i3 y hy, i1⟩
    have hrmem : ∀ x ∈ r :: acc.ranks, opts.r0 ≤ x ∧ x ≤ opts.rmax := by
      intro x hx
      rcases List.mem_cons.mp hx with rfl | hx
      · exact ⟨hr0, hrm⟩
      · exact i2 x hx
    have hrlast : (r :: acc.ranks).getLast? = some opts.r0 := by
      rcases i4 with h | ⟨hnil, hre⟩
      · cases hrk : acc.ranks with
        | nil =>
          rw [hrk] at h
          simp at h
        | cons b tl =>
          rw [hrk] at h
          rw [List.getLast?_cons_cons]
          exact h
      · rw [hnil, hre]
        rfl
    have hAchain :
        List.Chain' (fun a b : ℕ => a < b) (r :: acc.ranks).reverse :=
      List.chain'_reverse.mpr hrchain
    have hAhead : (r :: acc.ranks).reverse.head? = some opts.r0 := by
      rw [List.head?_reverse]
      exact hrlast
    have hAmem : ∀ x ∈ (r :: acc.ranks).reverse,
        opts.r0 ≤ x ∧ x ≤ opts.rmax := by
      intro x hx
      exact hrmem x (List.mem_reverse.mp hx)
    have hAlast : (r :: acc.ranks).reverse.getLast? = some r := by
      rw [List.getLast?_reverse]
      rfl
    have hFmem : ∀ l ∈ ((TNT P opts tick Y).1.function_values :: acc.fvals).reverse,
        List.Chain' (fun a b : Scalar => b ≤ a) l ∧ l ≠ [] := by
      intro l hl
      rcases List.mem_cons.mp (List.mem_reverse.mp hl) with rfl | hl2
      · exact ⟨c1, c2⟩
      · exact i11 l hl2
    have hFne :
        ((TNT P opts tick Y).1.function_values :: acc.fvals).reverse ≠ [] := by
      simp
    have hLfv :
        ((TNT P opts tick Y).1.function_values :: acc.fvals).reverse.length =
          (r :: acc.ranks).reverse.length := by
      simp [i5]
    have hLg :
        ((TNT P opts tick Y).1.gradient_norms :: acc.gnorms).reverse.length =
          (r :: acc.ranks).reverse.length := by
      simp [i6]
    have hLpg :
        ((TNT P opts tick Y).1.preconditioned_gradient_norms ::
            acc.pgnorms).reverse.length =
          (r :: acc.ranks).reverse.length := by
      simp [i7]
    have hLt :
        ((TNT P opts tick Y).1.elapsed_times :: acc.times).reverse.length =
          (r :: acc.ranks).reverse.length := by
      simp [i8]
    have hIfalse : opts.log_iterates = false →
        (if opts.log_iterates then
            (TNT P opts tick Y).1.iterates :: acc.iters
          else acc.iters).reverse = [] := by
      intro hl
      simp [hl, i10 hl]
    have hItrue : opts.log_iterates = true →
        (if opts.log_iterates then
            (TNT P opts tick Y).1.iterates :: acc.iters
          else acc.iters).reverse.length = (r :: acc.ranks).reverse.length := by
      intro hl
      simp [hl, i9 hl]
    have hHvLen :
        ((TNT P opts tick Y).1.Hessian_vector_products :: acc.hvps).reverse.length =
          (r :: acc.ranks).reverse.length := by
      simp [i12]
    have hHvNe : ∀ l ∈ ((TNT P opts tick Y).1.Hessian_vector_products ::
        acc.hvps).reverse, l ≠ [] := by
      intro l hl
      rcases List.mem_cons.mp (List.mem_reverse.mp hl) with rfl | hl2
      · intro hnil
        have h0 : (TNT P opts tick Y).1.function_values.length = 0 := by
          rw [← c10, hnil]
          rfl
        exact c2 (List.length_eq_zero.mp h0)
      · exact i13 l hl2
    have hVt1 : acc.vtimes.reverse.length = acc.lobpcg.reverse.length := by
      simp [i15]
    have hLob1 :
        (r :: acc.ranks).reverse.length - 1 ≤ acc.lobpcg.reverse.length ∧
        acc.lobpcg.reverse.length ≤ (r :: acc.ranks).reverse.length := by
      simp only [List.length_reverse, List.length_cons, i14]
      omega
    have hCurv1 :
        (r :: acc.ranks).reverse.length - 1 ≤ acc.curvatures.reverse.length ∧
        acc.curvatures.reverse.length ≤ (r :: acc.ranks).reverse.length := by
      simp only [List.length_reverse, List.length_cons, i16]
      omega
    have hVt2 :
        (P.clock (TNT P opts tick Y).1.tick :: acc.vtimes).reverse.length =
          ((P.eig r).iterations :: acc.lobpcg).reverse.length := by
      simp [i15]
    have hLob2 : ((P.eig r).iterations :: acc.lobpcg).reverse.length =
        (r :: acc.ranks).reverse.length := by
      simp [i14]
    have hLob2b :
        (r :: acc.ranks).reverse.length - 1 ≤
          ((P.eig r).iterations :: acc.lobpcg).reverse.length ∧
        ((P.eig r).iterations :: acc.lobpcg).reverse.length ≤
          (r :: acc.ranks).reverse.length := by
      simp only [List.length_reverse, List.length_cons, i14]
      omega
    have hCurv3 :
        (r :: acc.ranks).reverse.length - 1 ≤
          ((P.eig r).lambdaMin :: acc.curvatures).reverse.length ∧
        ((P.eig r).lambdaMin :: acc.curvatures).reverse.length ≤
          (r :: acc.ranks).reverse.length := by
      simp only [List.length_reverse, List.length_cons, i16]
      omega
    rw [staircaseAux]
    dsimp only
    by_cases hrE : (TNT P opts tick Y).1.reason = TNTReason.elapsedTime
    · rw [if_pos hrE]
      exact ⟨fun h => by simp [stairFinish] at h, fun h => by simp [stairFinish] at h,
        hAchain, hAhead, hAmem, fun h => by simp [stairFinish] at h,
        hFmem, hFne, hLfv, hLg, hLpg, hLt, hIfalse, hItrue,
        hHvLen, hHvNe, hVt1, fun h => absurd rfl h, hLob1, hCurv1⟩
    · rw [if_neg hrE]
      by_cases hclk : opts.max_computation_time ≤
          P.clock (TNT P opts tick Y).1.tick
      · rw [if_pos hclk]
        exact ⟨fun h => by simp [stairFinish] at h, fun h => by simp [stairFinish] at h,
          hAchain, hAhead, hAmem, fun h => by simp [stairFinish] at h,
          hFmem, hFne, hLfv, hLg, hLpg, hLt, hIfalse, hItrue,
          hHvLen, hHvNe, hVt1, fun h => absurd rfl h, hLob1, hCurv1⟩
      · rw [if_neg hclk]
        cases hcert : certify opts.min_eig_num_tol (P.eig r) with
        | certified =>
          exact ⟨fun _ => ⟨r, hr0, hrm, hcert,
              (certify_certified_iff _ _).mp hcert, rfl⟩,
            fun _ => ⟨rfl, gap_ge P (TNT P opts tick Y).1.Fval
              (P.eig r).lambdaMin opts.min_eig_num_tol htol⟩,
            hAchain, hAhead, hAmem, fun h => by simp [stairFinish] at h,
            hFmem, hFne, hLfv, hLg, hLpg, hLt, hIfalse, hItrue,
            hHvLen, hHvNe, hVt2, fun _ => hLob2, hLob2b, hCurv1⟩
        | imprecise =>
          exact ⟨fun h => by simp [stairFinish] at h, fun h => by simp [stairFinish] at h,
            hAchain, hAhead, hAmem, fun h => by simp [stairFinish] at h,
            hFmem, hFne, hLfv, hLg, hLpg, hLt, hIfalse, hItrue,
            hHvLen, hHvNe, hVt2, fun _ => hLob2, hLob2b, hCurv1⟩
        | escape =>
          by_cases hrb : opts.rmax < r + 1
          · rw [if_pos hrb]
            have hreq : r = opts.rmax := by omega
            exact ⟨fun h => by simp [stairFinish] at h, fun h => by simp [stairFinish] at h,
              hAchain, hAhead, hAmem,
              fun _ => ⟨by rw [← hreq]; exact hAlast, by rw [← hreq]; exact hcert⟩,
              hFmem, hFne, hLfv, hLg, hLpg, hLt, hIfalse, hItrue,
              hHvLen, hHvNe, hVt2, fun _ => hLob2, hLob2b, hCurv3⟩
          · rw [if_neg hrb]
            cases hesc : escape_saddle P (r + 1) (TNT P opts tick Y).1.Y
                (P.eig r).lambdaMin (P.eig r).vecIdx opts.grad_norm_tol
                opts.preconditioned_grad_norm_tol with
            | none =>
              exact ⟨fun h => by simp [stairFinish] at h, fun h => by simp [stairFinish] at h,
                hAchain, hAhead, hAmem, fun h => by simp [stairFinish] at h,
                hFmem, hFne, hLfv, hLg, hLpg, hLt, hIfalse, hItrue,
                hHvLen, hHvNe, hVt2, fun _ => hLob2, hLob2b, hCurv3⟩
            | some Yplus =>
              refine ih ((TNT P opts tick Y).1.tick + 1) (r + 1) Yplus _
                (by omega) (by omega) (by omega) ?_
              refine ⟨hrchain, hrmem, ?_, Or.inl hrlast, by simp [stairPushLevel, i5],
                by simp [stairPushLevel, i6], by simp [stairPushLevel, i7],
                by simp [stairPushLevel, i8], ?_, ?_, ?_,
                by simp [stairPushLevel, i12], ?_,
                by simp [stairPushLevel, i14], by simp [stairPushLevel, i15],
                by simp [stairPushLevel, i16]⟩
              · intro x hx
                simp [stairPushLevel] at hx
                omega
              · intro hl
                simp [stairPushLevel, hl, i9 hl]
              · intro hl
                simp [stairPushLevel, hl, i10 hl]
              · intro l hl
                rcases List.mem_cons.mp hl with rfl | hl2
                · exact ⟨c1, c2⟩
                · exact i11 l hl2
              · intro l hl
                rcases List.mem_cons.mp hl with rfl | hl2
                · intro hnil
                  have h0 : (TNT P opts tick Y).1.function_values.length = 0 := by
                    rw [← c10, hnil]
                    rfl
                  exact c2 (List.length_eq_zero.mp h0)
                · exact i13 l hl2

/-- The staircase result (first component) is independent of the configured
monitor function: runs whose options differ only in user_function, from
accumulators agreeing on every field except the monitor log, produce the
same result value. -/
theorem staircase_monfree (P : ProblemOracle) (opts : SESyncOpts)
    (mon2 : Option (Iterate → Scalar → Scalar)) (fuel : ℕ) :
    ∀ (tick r : ℕ) (Y : Iterate) (acc accB : StairAcc),
      acc.fvals = accB.fvals → acc.gnorms = accB.gnorms →
      acc.pgnorms = accB.pgnorms → acc.times = accB.times →
      acc.curvatures = accB.curvatures → acc.lobpcg = accB.lobpcg →
      acc.iters = accB.iters → acc.ranks = accB.ranks →
      acc.hvps = accB.hvps → acc.vtimes = accB.vtimes →
      (staircaseAux P opts fuel tick r Y acc).1 =
        (staircaseAux P { opts with user_function := mon2 }
          fuel tick r Y accB).1 := by
  induction fuel with
  | zero =>
    intro tick r Y acc accB e1 e2 e3 e4 e5 e6 e7 e8 e9 e10
    rw [staircaseAux, staircaseAux]
    simp [stairFinish, e1, e2, e3, e4, e5, e6, e7, e8, e9, e10]
  | succ fuel ih =>
    intro tick r Y acc accB e1 e2 e3 e4 e5 e6 e7 e8 e9 e10
    have hT : (TNTloop P opts opts.max_iterations tick P.initialRadius Y
          (TNTinitAcc P opts Y tick)).1 =
        (TNTloop P { opts with user_function := mon2 } opts.max_iterations tick
          P.initialRadius Y
          (TNTinitAcc P { opts with user_function := mon2 } Y tick)).1 :=
      TNTloop_monfree P opts mon2 opts.max_iterations tick P.initialRadius Y
        _ _ (by simp [TNTinitAcc]) (by simp [TNTinitAcc])
        (by simp [TNTinitAcc]) (by simp [TNTinitAcc])
        (by simp [TNTinitAcc]) (by simp [TNTinitAcc])
        (by simp [TNTinitAcc]) (by simp [TNTinitAcc])
    rw [staircaseAux, staircaseAux]
    simp only [TNT]
    rw [← hT]
    by_cases hrE : (TNTloop P opts opts.max_iterations tick P.initialRadius Y
        (TNTinitAcc P opts Y tick)).1.reason = TNTReason.elapsedTime
    · rw [if_pos hrE, if_pos hrE]
      simp [stairFinish, stairPushLevel, e1, e2, e3, e4, e5, e6, e7, e8, e9, e10]
    · rw [if_neg hrE, if_neg hrE]
      by_cases hclk : opts.max_computation_time ≤ P.clock
          (TNTloop P opts opts.max_iterations tick P.initialRadius Y
            (TNTinitAcc P opts Y tick)).1.tick
      · rw [if_pos hclk, if_pos hclk]
        simp [stairFinish, stairPushLevel, e1, e2, e3, e4, e5, e6, e7, e8, e9, e10]
      · rw [if_neg hclk, if_neg hclk]
        cases hcert : certify opts.min_eig_num_tol (P.eig r) with
        | certified =>
          simp [stairFinish, stairPushLevel, e1, e2, e3, e4, e5, e6, e7, e8, e9, e10]
        | imprecise =>
          simp [stairFinish, stairPushLevel, e1, e2, e3, e4, e5, e6, e7, e8, e9, e10]
        | escape =>
          by_cases hrb : opts.rmax < r + 1
          · rw [if_pos hrb, if_pos hrb]
            simp [stairFinish, stairPushLevel, e1, e2, e3, e4, e5, e6, e7, e8, e9, e10]
          · rw [if_neg hrb, if_neg hrb]
            cases hesc : escape_saddle P (r + 1)
                (TNTloop P opts opts.max_iterations tick P.initialRadius Y
                  (TNTinitAcc P opts Y tick)).1.Y
                (P.eig r).lambdaMin (P.eig r).vecIdx opts.grad_norm_tol
                opts.preconditioned_grad_norm_tol with
            | none =>
              simp [stairFinish, stairPushLevel, e1, e2, e3, e4, e5, e6, e7, e8, e9, e10]
            | some Yplus =>
              exact ih _ _ _ _ _
                (by simp [stairPushLevel, e1]) (by simp [stairPushLevel, e2])
                (by simp [stairPushLevel, e3]) (by simp [stairPushLevel, e4])
                (by simp [stairPushLevel, e5]) (by simp [stairPushLevel, e6])
                (by simp [stairPushLevel, e7]) (by simp [stairPushLevel, e8])
                (by simp [stairPushLevel, e9]) (by simp [stairPushLevel, e10])

/-- With no monitor configured, the staircase run produces an empty monitor
log. -/
theorem staircase_mlog_none (P : ProblemOracle) (opts : SESyncOpts)
    (hmon : opts.user_function = none) (fuel : ℕ) :
    ∀ (tick r : ℕ) (Y : Iterate) (acc : StairAcc),
      acc.mlog = [] →
      (staircaseAux P opts fuel tick r Y acc).2 = [] := by
  induction fuel with
  | zero =>
    intro tick r Y acc hm
    rw [staircaseAux]
    exact hm
  | succ fuel ih =>
    intro tick r Y acc hm
    obtain ⟨c1, c2, c3, c4, c5, c6, c7, c8, c9, c10⟩ := TNT_conc P opts tick Y
    have hm1 : (stairPushLevel opts r (TNT P opts tick Y).1
        (TNT P opts tick Y).2 acc).mlog = [] := by
      simp [stairPushLevel, hm, c9 hmon]
    rw [staircaseAux]
    dsimp only
    by_cases hrE : (TNT P opts tick Y).1.reason = TNTReason.elapsedTime
    · rw [if_pos hrE]
      exact hm1
    · rw [if_neg hrE]
      by_cases hclk : opts.max_computation_time ≤
          P.clock (TNT P opts tick Y).1.tick
      · rw [if_pos hclk]
        exact hm1
      · rw [if_neg hclk]
        cases hcert : certify opts.min_eig_num_tol (P.eig r) with
        | certified => exact hm1
        | imprecise => exact hm1
        | escape =>
          by_cases hrb : opts.rmax < r + 1
          · rw [if_pos hrb]
            exact hm1
          · rw [if_neg hrb]
            cases hesc : escape_saddle P (r + 1) (TNT P opts tick Y).1.Y
                (P.eig r).lambdaMin (P.eig r).vecIdx opts.grad_norm_tol
                opts.preconditioned_grad_norm_tol with
            | none => exact hm1
            | some Yplus => exact ih _ _ _ _ hm1

/-- A configuration that passes validation has a positive theta, a kappa in
the open unit interval, an initial rank of at least d + 1, and a maximum
rank of at least the initial rank. -/
theorem checkOpts_none_facts (d : ℕ) (opts : SESyncOpts)
    (h : checkOpts d opts = none) :
    0 < opts.STPCG_theta ∧ 0 < opts.STPCG_kappa ∧ opts.STPCG_kappa < 1 ∧
    d + 1 ≤ opts.r0 ∧ opts.r0 ≤ opts.rmax := by
  unfold checkOpts at h
  split_ifs at h with h1 h2 h3 h4
  push_neg at h1 h2 h3 h4
  exact ⟨h1, h2.1, h2.2, h3, h4⟩

/-- A configuration violating one of the four validation clauses is
rejected with some configuration error. -/
theorem checkOpts_invalid (d : ℕ) (opts : SESyncOpts)
    (h : opts.STPCG_theta ≤ 0 ∨ opts.STPCG_kappa ≤ 0 ∨ 1 ≤ opts.STPCG_kappa ∨
      opts.r0 < d + 1 ∨ opts.rmax < opts.r0) :
    ∃ e, checkOpts d opts = some e := by
  unfold checkOpts
  split_ifs with h1 h2 h3 h4
  · exact ⟨_, rfl⟩
  · exact ⟨_, rfl⟩
  · exact ⟨_, rfl⟩
  · exact ⟨_, rfl⟩
  · push_neg at h1 h2 h3 h4
    rcases h with h | h | h | h | h
    · exact absurd h (not_le.mpr h1)
    · exact absurd h (not_le.mpr h2.1)
    · exact absurd h (not_le.mpr h2.2)
    · omega
    · omega

/-- The empty staircase accumulator satisfies the staircase invariant at the
initial rank. -/
theorem stairAccInv_empty (opts : SESyncOpts) :
    stairAccInv opts opts.r0 emptyStairAcc := by
  refine ⟨List.chain'_nil, ?_, ?_, Or.inr ⟨rfl, rfl⟩, rfl, rfl, rfl, rfl,
    fun _ => rfl, fun _ => rfl, ?_, rfl, ?_, rfl, rfl, rfl⟩
  · intro x hx
    simp [emptyStairAcc] at hx
  · intro x hx
    simp [emptyStairAcc] at hx
  · intro l hl
    simp [emptyStairAcc] at hl
  · intro l hl
    simp [emptyStairAcc] at hl

/-- A validated run returns ok with a result satisfying all staircase
conclusions. -/
theorem SESyncRun_ok (P : ProblemOracle) (opts : SESyncOpts)
    (Y0 : Option Iterate) (hvalid : checkOpts P.d opts = none)
    (htol : 0 ≤ opts.min_eig_num_tol) :
    ∃ res log, SESyncRun P opts Y0 = Except.ok (res, log) ∧
      StairConc P opts res := by
  obtain ⟨hθ, hκ0, hκ1, hd, hr⟩ := checkOpts_none_facts P.d opts hvalid
  have hrun : SESyncRun P opts Y0 = Except.ok
      (staircaseAux P opts (opts.rmax + 1 - opts.r0) 0 opts.r0
        (match Y0 with
         | some Y => Y
         | none => P.initial opts.r0) emptyStairAcc) := by
    unfold SESyncRun
    rw [hvalid]
  exact ⟨_, _, hrun, staircase_conc P opts htol (opts.rmax + 1 - opts.r0) 0
    opts.r0 _ emptyStairAcc (by omega) le_rfl hr (stairAccInv_empty opts)⟩

/-- C2: for every valid configuration, SESync terminates and returns a
result whose status is exactly one of the five enumeration values, decided
once when the staircase driver exits; GlobalOpt is only returned when the
certifier found a minimum eigenvalue of at least minus min_eig_num_tol at
some visited rank level. -/
theorem C2_termination_status (P : ProblemOracle) (opts : SESyncOpts)
    (Y0 : Option Iterate) (hvalid : checkOpts P.d opts = none)
    (htol : 0 ≤ opts.min_eig_num_tol) :
    ∃ res log, SESyncRun P opts Y0 = Except.ok (res, log) ∧
      (res.status = SESyncStatus.GlobalOpt ∨
        res.status = SESyncStatus.SaddlePoint ∨
        res.status = SESyncStatus.EigImprecision ∨
        res.status = SESyncStatus.MaxRank ∨
        res.status = SESyncStatus.ElapsedTime) ∧
      (res.status = SESyncStatus.GlobalOpt →
        ∃ rr, opts.r0 ≤ rr ∧ rr ≤ opts.rmax ∧
          certify opts.min_eig_num_tol (P.eig rr) = CertOutcome.certified ∧
          -opts.min_eig_num_tol ≤ (P.eig rr).lambdaMin) := by
  obtain ⟨res, log, hrun, hc⟩ := SESyncRun_ok P opts Y0 hvalid htol
  refine ⟨res, log, hrun, ?_, ?_⟩
  · cases hst : res.status <;> simp [hst]
  · intro hopt
    obtain ⟨rr, h1, h2, h3, h4, _⟩ := hc.globalOptCert hopt
    exact ⟨rr, h1, h2, h3, h4⟩

/-- Witness for C2 at the example oracle with the witness options. -/
theorem C2_termination_status_witness :
    ∃ res log, SESyncRun exOracle wopts none = Except.ok (res, log) ∧
      (res.status = SESyncStatus.GlobalOpt ∨
        res.status = SESyncStatus.SaddlePoint ∨
        res.status = SESyncStatus.EigImprecision ∨
        res.status = SESyncStatus.MaxRank ∨
        res.status = SESyncStatus.ElapsedTime) ∧
      (res.status = SESyncStatus.GlobalOpt →
        ∃ rr, wopts.r0 ≤ rr ∧ rr ≤ wopts.rmax ∧
          certify wopts.min_eig_num_tol (exOracle.eig rr) = CertOutcome.certified ∧
          -wopts.min_eig_num_tol ≤ (exOracle.eig rr).lambdaMin) :=
  C2_termination_status exOracle wopts none (by norm_num [checkOpts, wopts, exOracle])
    (by norm_num [wopts])

/-- C5: the rank sequence visited by the staircase driver is strictly
increasing, starts at r0 and never exceeds rmax.  Whenever the rank would be
incremented past rmax (an escape certificate at a level whose increment
exceeds rmax, with certification checked first), the driver stops with
status MaxRank and performs no further escalation; conversely a MaxRank
outcome happens only at the last level rmax, after certification at that
rank was checked and produced an escape certificate rather than a
certificate of optimality. -/
theorem C5_rank_monotonic (P : ProblemOracle) (opts : SESyncOpts)
    (Y0 : Option Iterate) (hvalid : checkOpts P.d opts = none)
    (htol : 0 ≤ opts.min_eig_num_tol) :
    (∃ res log, SESyncRun P opts Y0 = Except.ok (res, log) ∧
      List.Chain' (fun a b : ℕ => a < b) res.visited_ranks ∧
      res.visited_ranks.head? = some opts.r0 ∧
      (∀ x ∈ res.visited_ranks, opts.r0 ≤ x ∧ x ≤ opts.rmax) ∧
      (res.status = SESyncStatus.MaxRank →
        res.visited_ranks.getLast? = some opts.rmax ∧
        certify opts.min_eig_num_tol (P.eig opts.rmax) = CertOutcome.escape)) ∧
    (∀ (fuel tick rr : ℕ) (Yc : Iterate) (acc : StairAcc),
      (TNT P opts tick Yc).1.reason ≠ TNTReason.elapsedTime →
      ¬ opts.max_computation_time ≤ P.clock (TNT P opts tick Yc).1.tick →
      certify opts.min_eig_num_tol (P.eig rr) = CertOutcome.escape →
      opts.rmax < rr + 1 →
      (staircaseAux P opts (fuel + 1) tick rr Yc acc).1.status =
        SESyncStatus.MaxRank) := by
  constructor
  · obtain ⟨res, log, hrun, hc⟩ := SESyncRun_ok P opts Y0 hvalid htol
    exact ⟨res, log, hrun, hc.ranksChain, hc.ranksHead, hc.ranksMem,
      hc.maxRankLast⟩
  · intro fuel tick rr Yc acc h1 h2 h3 h4
    rw [staircaseAux]
    dsimp only
    rw [if_neg h1, if_neg h2, h3]
    dsimp only
    rw [if_pos h4]
    rfl

/-- Witness for C5 at the example oracle with the witness options. -/
theorem C5_rank_monotonic_witness :
    (∃ res log, SESyncRun exOracle wopts none = Except.ok (res, log) ∧
      List.Chain' (fun a b : ℕ => a < b) res.visited_ranks ∧
      res.visited_ranks.head? = some wopts.r0 ∧
      (∀ x ∈ res.visited_ranks, wopts.r0 ≤ x ∧ x ≤ wopts.rmax) ∧
      (res.status = SESyncStatus.MaxRank →
        res.visited_ranks.getLast? = some wopts.rmax ∧
        certify wopts.min_eig_num_tol (exOracle.eig wopts.rmax) =
          CertOutcome.escape)) ∧
    (∀ (fuel tick rr : ℕ) (Yc : Iterate) (acc : StairAcc),
      (TNT exOracle wopts tick Yc).1.reason ≠ TNTReason.elapsedTime →
      ¬ wopts.max_computation_time ≤
        exOracle.clock (TNT exOracle wopts tick Yc).1.tick →
      certify wopts.min_eig_num_tol (exOracle.eig rr) = CertOutcome.escape →
      wopts.rmax < rr + 1 →
      (staircaseAux exOracle wopts (fuel + 1) tick rr Yc acc).1.status =
        SESyncStatus.MaxRank) :=
  C5_rank_monotonic exOracle wopts none (by norm_num [checkOpts, wopts, exOracle])
    (by norm_num [wopts])

/-- C6: across accepted trust-region iterations the objective value is
non-increasing: every per-level function-value trace in the returned result
is a non-increasing sequence. -/
theorem C6_objective_monotone (P : ProblemOracle) (opts : SESyncOpts)
    (Y0 : Option Iterate) (hvalid : checkOpts P.d opts = none)
    (htol : 0 ≤ opts.min_eig_num_tol) :
    ∃ res log, SESyncRun P opts Y0 = Except.ok (res, log) ∧
      ∀ l ∈ res.function_values,
        List.Chain' (fun a b : Scalar => b ≤ a) l := by
  obtain ⟨res, log, hrun, hc⟩ := SESyncRun_ok P opts Y0 hvalid htol
  exact ⟨res, log, hrun, fun l hl => (hc.fvalsMono l hl).1⟩

/-- Witness for C6 at the example oracle with the witness options. -/
theorem C6_objective_monotone_witness :
    ∃ res log, SESyncRun exOracle wopts none = Except.ok (res, log) ∧
      ∀ l ∈ res.function_values,
        List.Chain' (fun a b : Scalar => b ≤ a) l :=
  C6_objective_monotone exOracle wopts none (by norm_num [checkOpts, wopts, exOracle])
    (by norm_num [wopts])

/-- C8: whenever GlobalOpt is returned, the duality gap equals SDPval minus
trLambda and is at least minus min_eig_num_tol. -/
theorem C8_duality_gap (P : ProblemOracle) (opts : SESyncOpts)
    (Y0 : Option Iterate) (hvalid : checkOpts P.d opts = none)
    (htol : 0 ≤ opts.min_eig_num_tol) :
    ∃ res log, SESyncRun P opts Y0 = Except.ok (res, log) ∧
      (res.status = SESyncStatus.GlobalOpt →
        res.duality_gap = res.SDPval - res.trLambda ∧
        -opts.min_eig_num_tol ≤ res.duality_gap) := by
  obtain ⟨res, log, hrun, hc⟩ := SESyncRun_ok P opts Y0 hvalid htol
  exact ⟨res, log, hrun, hc.globalOptGap⟩

/-- Witness for C8 at the example oracle with the witness options. -/
theorem C8_duality_gap_witness :
    ∃ res log, SESyncRun exOracle wopts none = Except.ok (res, log) ∧
      (res.status = SESyncStatus.GlobalOpt →
        res.duality_gap = res.SDPval - res.trLambda ∧
        -wopts.min_eig_num_tol ≤ res.duality_gap) :=
  C8_duality_gap exOracle wopts none (by norm_num [checkOpts, wopts, exOracle])
    (by norm_num [wopts])

/-- C10: the iterates field of the result holds the per-level iterate
sequences exactly when log_iterates is set; when it is unset (the default)
the iterates field is empty while every other per-level statistics field of
the header result struct is still populated: the four per-iteration traces
and the Hessian-vector-product counts have one nonempty entry per visited
rank level, verification times are recorded one per LOBPCG eigensolve, the
LOBPCG iteration counts cover every visited level (every level except,
possibly, a final time-out level), and the escape curvatures cover every
escape taken. -/
theorem C10_log_iterates (P : ProblemOracle) (opts : SESyncOpts)
    (Y0 : Option Iterate) (hvalid : checkOpts P.d opts = none)
    (htol : 0 ≤ opts.min_eig_num_tol) :
    ∃ res log, SESyncRun P opts Y0 = Except.ok (res, log) ∧
      (opts.log_iterates = false →
        res.iterates = [] ∧
        res.function_values.length = res.visited_ranks.length ∧
        res.gradient_norms.length = res.visited_ranks.length ∧
        res.preconditioned_gradient_norms.length = res.visited_ranks.length ∧
        res.Hessian_vector_products.length = res.visited_ranks.length ∧
        res.elapsed_optimization_times.length = res.visited_ranks.length ∧
        res.function_values ≠ [] ∧
        (∀ l ∈ res.function_values, l ≠ []) ∧
        (∀ l ∈ res.Hessian_vector_products, l ≠ []) ∧
        res.verification_times.length = res.LOBPCG_iters.length ∧
        (res.status ≠ SESyncStatus.ElapsedTime →
          res.LOBPCG_iters.length = res.visited_ranks.length) ∧
        res.visited_ranks.length - 1 ≤ res.LOBPCG_iters.length ∧
        res.LOBPCG_iters.length ≤ res.visited_ranks.length ∧
        res.visited_ranks.length - 1 ≤
          res.escape_direction_curvatures.length ∧
        res.escape_direction_curvatures.length ≤ res.visited_ranks.length) ∧
      (opts.log_iterates = true →
        res.iterates.length = res.visited_ranks.length) := by
  obtain ⟨res, log, hrun, hc⟩ := SESyncRun_ok P opts Y0 hvalid htol
  exact ⟨res, log, hrun,
    fun hl => ⟨hc.itersNone hl, hc.lenFv, hc.lenG, hc.lenPG, hc.lenHvp,
      hc.lenT, hc.fvalsNe, fun l hml => (hc.fvalsMono l hml).2, hc.hvpsNe,
      hc.lenVt, hc.lobFull, hc.lobBounds.1, hc.lobBounds.2,
      hc.curvBounds.1, hc.curvBounds.2⟩,
    hc.itersLen⟩

/-- Witness for C10 at the example oracle with the witness options. -/
theorem C10_log_iterates_witness :
    ∃ res log, SESyncRun exOracle wopts none = Except.ok (res, log) ∧
      (wopts.log_iterates = false →
        res.iterates = [] ∧
        res.function_values.length = res.visited_ranks.length ∧
        res.gradient_norms.length = res.visited_ranks.length ∧
        res.preconditioned_gradient_norms.length = res.visited_ranks.length ∧
        res.Hessian_vector_products.length = res.visited_ranks.length ∧
        res.elapsed_optimization_times.length = res.visited_ranks.length ∧
        res.function_values ≠ [] ∧
        (∀ l ∈ res.function_values, l ≠ []) ∧
        (∀ l ∈ res.Hessian_vector_products, l ≠ []) ∧
        res.verification_times.length = res.LOBPCG_iters.length ∧
        (res.status ≠ SESyncStatus.ElapsedTime →
          res.LOBPCG_iters.length = res.visited_ranks.length) ∧
        res.visited_ranks.length - 1 ≤ res.LOBPCG_iters.length ∧
        res.LOBPCG_iters.length ≤ res.visited_ranks.length ∧
        res.visited_ranks.length - 1 ≤
          res.escape_direction_curvatures.length ∧
        res.escape_direction_curvatures.length ≤ res.visited_ranks.length) ∧
      (wopts.log_iterates = true →
        res.iterates.length = res.visited_ranks.length) :=
  C10_log_iterates exOracle wopts none (by norm_num [checkOpts, wopts, exOracle])
    (by norm_num [wopts])

/-- C7: an invocation with an invalid configuration (nonpositive theta,
kappa outside the open unit interval, initial rank below d + 1, or maximum
rank below the initial rank) fails fast with a descriptive configuration
error before any numerical work: the same error is produced whatever the
problem oracle and initial iterate. -/
theorem C7_config_fail_fast (P PB : ProblemOracle) (opts : SESyncOpts)
    (Y0 Y0B : Option Iterate) (hd : PB.d = P.d)
    (hbad : opts.STPCG_theta ≤ 0 ∨ opts.STPCG_kappa ≤ 0 ∨
      1 ≤ opts.STPCG_kappa ∨ opts.r0 < P.d + 1 ∨ opts.rmax < opts.r0) :
    ∃ e, SESyncRun P opts Y0 = Except.error e ∧
      SESyncRun PB opts Y0B = Except.error e := by
  obtain ⟨e, he⟩ := checkOpts_invalid P.d opts hbad
  refine ⟨e, ?_, ?_⟩
  · unfold SESyncRun
    rw [he]
  · unfold SESyncRun
    rw [hd, he]

/-- Witness for C7: theta zero is rejected with the same error for two
different initial iterates. -/
theorem C7_config_fail_fast_witness :
    ∃ e, SESyncRun exOracle badOpts none = Except.error e ∧
      SESyncRun exOracle badOpts (some ⟨5, 0⟩) = Except.error e :=
  C7_config_fail_fast exOracle exOracle badOpts none (some ⟨5, 0⟩) rfl
    (Or.inl (by norm_num [badOpts]))

/-- C4: under the documented precondition that the relaxation rank equals
one more than the number of rows of the critical point, a successful
escape_saddle returns a point whose objective value is strictly below that
of the critical point and whose gradient norm strictly exceeds the gradient
tolerance; and when the escape fails at a staircase level with a valid
escape certificate and remaining rank budget, the driver terminates with
SaddlePoint rather than retrying. -/
theorem C4_escape_saddle_contract (P : ProblemOracle) (r : ℕ) (Y : Iterate)
    (theta : Scalar) (v : ℕ) (gtol pgtol : Scalar) (hpre : r = Y.rows + 1) :
    (∀ Yplus, escape_saddle P r Y theta v gtol pgtol = some Yplus →
      P.F Yplus < P.F Y ∧ gtol < P.gradnorm Yplus) ∧
    (∀ (opts : SESyncOpts) (fuel tick rr : ℕ) (Y0 : Iterate) (acc : StairAcc),
      (TNT P opts tick Y0).1.reason ≠ TNTReason.elapsedTime →
      ¬ opts.max_computation_time ≤ P.clock (TNT P opts tick Y0).1.tick →
      certify opts.min_eig_num_tol (P.eig rr) = CertOutcome.escape →
      ¬ opts.rmax < rr + 1 →
      escape_saddle P (rr + 1) (TNT P opts tick Y0).1.Y (P.eig rr).lambdaMin
        (P.eig rr).vecIdx opts.grad_norm_tol
        opts.preconditioned_grad_norm_tol = none →
      (staircaseAux P opts (fuel + 1) tick rr Y0 acc).1.status =
        SESyncStatus.SaddlePoint) := by
  constructor
  · intro Yplus hsome
    exact escapeLSAux_sound P r (P.F Y) gtol escapeLSmax 0 Yplus hsome
  · intro opts fuel tick rr Y0 acc h1 h2 h3 h4 h5
    rw [staircaseAux]
    dsimp only
    rw [if_neg h1, if_neg h2, h3]
    dsimp only
    rw [if_neg h4, h5]
    rfl

/-- Witness for C4 at the example oracle. -/
theorem C4_escape_saddle_contract_witness :
    (∀ Yplus, escape_saddle exOracle 3 ⟨2, 5⟩ (-1) 0 (1/100) (1/10000) =
        some Yplus →
      exOracle.F Yplus < exOracle.F ⟨2, 5⟩ ∧
      1/100 < exOracle.gradnorm Yplus) ∧
    (∀ (opts : SESyncOpts) (fuel tick rr : ℕ) (Y0 : Iterate) (acc : StairAcc),
      (TNT exOracle opts tick Y0).1.reason ≠ TNTReason.elapsedTime →
      ¬ opts.max_computation_time ≤
        exOracle.clock (TNT exOracle opts tick Y0).1.tick →
      certify opts.min_eig_num_tol (exOracle.eig rr) = CertOutcome.escape →
      ¬ opts.rmax < rr + 1 →
      escape_saddle exOracle (rr + 1) (TNT exOracle opts tick Y0).1.Y
        (exOracle.eig rr).lambdaMin (exOracle.eig rr).vecIdx
        opts.grad_norm_tol opts.preconditioned_grad_norm_tol = none →
      (staircaseAux exOracle opts (fuel + 1) tick rr Y0 acc).1.status =
        SESyncStatus.SaddlePoint) :=
  C4_escape_saddle_contract exOracle 3 ⟨2, 5⟩ (-1) 0 (1/100) (1/10000) rfl

/-- C3: after TNT convergence at a rank level (no time-out at the level or
at the certification checkpoint), the certifier outcome is classified
exactly: certified when the computed minimum eigenvalue is at least minus
min_eig_num_tol, in which case the run returns GlobalOpt with the corrected
dual trace and the duality gap; imprecise when the eigenvalue is below the
tolerance but LOBPCG failed to converge within its budget, in which case
the run returns EigImprecision; and otherwise a valid escape certificate
that drives the saddle-escape step, the run continuing at the escaped point
of the next rank. -/
theorem C3_certifier_classification (P : ProblemOracle) (opts : SESyncOpts)
    (fuel tick r : ℕ) (Y : Iterate) (acc : StairAcc)
    (hrE : (TNT P opts tick Y).1.reason ≠ TNTReason.elapsedTime)
    (hclk : ¬ opts.max_computation_time ≤ P.clock (TNT P opts tick Y).1.tick) :
    (certify opts.min_eig_num_tol (P.eig r) = CertOutcome.certified ↔
      -opts.min_eig_num_tol ≤ (P.eig r).lambdaMin) ∧
    (certify opts.min_eig_num_tol (P.eig r) = CertOutcome.imprecise ↔
      (P.eig r).lambdaMin < -opts.min_eig_num_tol ∧
      (P.eig r).converged = false) ∧
    (certify opts.min_eig_num_tol (P.eig r) = CertOutcome.escape ↔
      (P.eig r).lambdaMin < -opts.min_eig_num_tol ∧
      (P.eig r).converged = true) ∧
    (certify opts.min_eig_num_tol (P.eig r) = CertOutcome.certified →
      (staircaseAux P opts (fuel + 1) tick r Y acc).1.status =
        SESyncStatus.GlobalOpt ∧
      (staircaseAux P opts (fuel + 1) tick r Y acc).1.trLambda =
        trLambdaOf P (TNT P opts tick Y).1.Fval (P.eig r).lambdaMin ∧
      (staircaseAux P opts (fuel + 1) tick r Y acc).1.duality_gap =
        (TNT P opts tick Y).1.Fval -
          trLambdaOf P (TNT P opts tick Y).1.Fval (P.eig r).lambdaMin) ∧
    (certify opts.min_eig_num_tol (P.eig r) = CertOutcome.imprecise →
      (staircaseAux P opts (fuel + 1) tick r Y acc).1.status =
        SESyncStatus.EigImprecision) ∧
    (certify opts.min_eig_num_tol (P.eig r) = CertOutcome.escape →
      ∀ Yplus,
        escape_saddle P (r + 1) (TNT P opts tick Y).1.Y (P.eig r).lambdaMin
          (P.eig r).vecIdx opts.grad_norm_tol
          opts.preconditioned_grad_norm_tol = some Yplus →
        ¬ opts.rmax < r + 1 →
        staircaseAux P opts (fuel + 1) tick r Y acc =
          staircaseAux P opts fuel ((TNT P opts tick Y).1.tick + 1) (r + 1)
            Yplus (stairEscAcc P opts tick r Y acc)) := by
  refine ⟨certify_certified_iff _ _, certify_imprecise_iff _ _,
    certify_escape_iff _ _, ?_, ?_, ?_⟩
  · intro hc
    rw [staircaseAux]
    dsimp only
    rw [if_neg hrE, if_neg hclk, hc]
    exact ⟨rfl, rfl, rfl⟩
  · intro hc
    rw [staircaseAux]
    dsimp only
    rw [if_neg hrE, if_neg hclk, hc]
    rfl
  · intro hc Yplus hesc hrb
    rw [staircaseAux]
    dsimp only
    rw [if_neg hrE, if_neg hclk, hc]
    dsimp only
    rw [if_neg hrb, hesc]
    rfl

/-- Witness for C3 at the example oracle with the witness options at rank
3. -/
theorem C3_certifier_classification_witness :
    (certify wopts.min_eig_num_tol (exOracle.eig 3) = CertOutcome.certified ↔
      -wopts.min_eig_num_tol ≤ (exOracle.eig 3).lambdaMin) ∧
    (certify wopts.min_eig_num_tol (exOracle.eig 3) = CertOutcome.imprecise ↔
      (exOracle.eig 3).lambdaMin < -wopts.min_eig_num_tol ∧
      (exOracle.eig 3).converged = false) ∧
    (certify wopts.min_eig_num_tol (exOracle.eig 3) = CertOutcome.escape ↔
      (exOracle.eig 3).lambdaMin < -wopts.min_eig_num_tol ∧
      (exOracle.eig 3).converged = true) ∧
    (certify wopts.min_eig_num_tol (exOracle.eig 3) = CertOutcome.certified →
      (staircaseAux exOracle wopts (1 + 1) 0 3 ⟨3, 0⟩ emptyStairAcc).1.status =
        SESyncStatus.GlobalOpt ∧
      (staircaseAux exOracle wopts (1 + 1) 0 3 ⟨3, 0⟩ emptyStairAcc).1.trLambda =
        trLambdaOf exOracle (TNT exOracle wopts 0 ⟨3, 0⟩).1.Fval
          (exOracle.eig 3).lambdaMin ∧
      (staircaseAux exOracle wopts (1 + 1) 0 3 ⟨3, 0⟩ emptyStairAcc).1.duality_gap =
        (TNT exOracle wopts 0 ⟨3, 0⟩).1.Fval -
          trLambdaOf exOracle (TNT exOracle wopts 0 ⟨3, 0⟩).1.Fval
            (exOracle.eig 3).lambdaMin) ∧
    (certify wopts.min_eig_num_tol (exOracle.eig 3) = CertOutcome.imprecise →
      (staircaseAux exOracle wopts (1 + 1) 0 3 ⟨3, 0⟩ emptyStairAcc).1.status =
        SESyncStatus.EigImprecision) ∧
    (certify wopts.min_eig_num_tol (exOracle.eig 3) = CertOutcome.escape →
      ∀ Yplus,
        escape_saddle exOracle (3 + 1) (TNT exOracle wopts 0 ⟨3, 0⟩).1.Y
          (exOracle.eig 3).lambdaMin (exOracle.eig 3).vecIdx
          wopts.grad_norm_tol wopts.preconditioned_grad_norm_tol =
            some Yplus →
        ¬ wopts.rmax < 3 + 1 →
        staircaseAux exOracle wopts (1 + 1) 0 3 ⟨3, 0⟩ emptyStairAcc =
          staircaseAux exOracle wopts 1
            ((TNT exOracle wopts 0 ⟨3, 0⟩).1.tick + 1) (3 + 1) Yplus
            (stairEscAcc exOracle wopts 0 3 ⟨3, 0⟩ emptyStairAcc)) :=
  C3_certifier_classification exOracle wopts 1 0 3 ⟨3, 0⟩ emptyStairAcc
    (by norm_num [TNT, TNTloop, TNTinitAcc, TNTfinish, wopts, exOracle] <;> decide)
    (by norm_num [TNT, TNTloop, TNTinitAcc, TNTfinish, wopts, exOracle] <;> decide)

/-- C9: the optional monitor is invoked exactly once per outer TNT
iteration and is purely observational: a run with the monitor configured
returns exactly the same result value as the same run without it, the
monitor-free run having an empty observation log. -/
theorem C9_monitor_pure (P : ProblemOracle) (opts : SESyncOpts)
    (Y0 : Option Iterate) (f : Iterate → Scalar → Scalar)
    (hvalid : checkOpts P.d opts = none) :
    (∃ res log, SESyncRun P { opts with user_function := some f } Y0 =
        Except.ok (res, log) ∧
      SESyncRun P { opts with user_function := none } Y0 =
        Except.ok (res, [])) ∧
    (∀ (tick : ℕ) (Y : Iterate),
      (TNT P { opts with user_function := some f } tick Y).2.length =
        (TNT P { opts with user_function := some f } tick Y).1.numOuter) := by
  constructor
  · have hv1 : checkOpts P.d { opts with user_function := some f } = none :=
      hvalid
    have hv2 : checkOpts P.d { opts with user_function := none } = none :=
      hvalid
    have hmon1 : ∀ Yinit : Iterate,
        (staircaseAux P { opts with user_function := none }
          (opts.rmax + 1 - opts.r0) 0 opts.r0 Yinit emptyStairAcc).1 =
        (staircaseAux P { opts with user_function := some f }
          (opts.rmax + 1 - opts.r0) 0 opts.r0 Yinit emptyStairAcc).1 :=
      fun Yinit => (staircase_monfree P { opts with user_function := some f }
        none (opts.rmax + 1 - opts.r0) 0 opts.r0 Yinit emptyStairAcc
        emptyStairAcc rfl rfl rfl rfl rfl rfl rfl rfl rfl rfl).symm
    have hlog : ∀ Yinit : Iterate,
        (staircaseAux P { opts with user_function := none }
          (opts.rmax + 1 - opts.r0) 0 opts.r0 Yinit emptyStairAcc).2 = [] :=
      fun Yinit => staircase_mlog_none P { opts with user_function := none }
        rfl (opts.rmax + 1 - opts.r0) 0 opts.r0 Yinit emptyStairAcc rfl
    cases Y0 with
    | none =>
      refine ⟨(staircaseAux P { opts with user_function := some f }
          (opts.rmax + 1 - opts.r0) 0 opts.r0 (P.initial opts.r0)
          emptyStairAcc).1,
        (staircaseAux P { opts with user_function := some f }
          (opts.rmax + 1 - opts.r0) 0 opts.r0 (P.initial opts.r0)
          emptyStairAcc).2, ?_, ?_⟩
      · unfold SESyncRun
        rw [hv1]
      · unfold SESyncRun
        rw [hv2]
        exact congrArg Except.ok
          (Prod.ext (hmon1 (P.initial opts.r0)) (hlog (P.initial opts.r0)))
    | some Yinit =>
      refine ⟨(staircaseAux P { opts with user_function := some f }
          (opts.rmax + 1 - opts.r0) 0 opts.r0 Yinit emptyStairAcc).1,
        (staircaseAux P { opts with user_function := some f }
          (opts.rmax + 1 - opts.r0) 0 opts.r0 Yinit emptyStairAcc).2, ?_, ?_⟩
      · unfold SESyncRun
        rw [hv1]
      · unfold SESyncRun
        rw [hv2]
        exact congrArg Except.ok (Prod.ext (hmon1 Yinit) (hlog Yinit))
  · intro tick Y
    obtain ⟨_, _, _, _, _, _, _, c8, _⟩ :=
      TNT_conc P { opts with user_function := some f } tick Y
    exact c8 f rfl

/-- Witness for C9 at the example oracle with the witness options and the
monitor returning the observed objective value. -/
theorem C9_monitor_pure_witness :
    (∃ res log, SESyncRun exOracle
        { wopts with user_function := some (fun _ q => q) } none =
        Except.ok (res, log) ∧
      SESyncRun exOracle { wopts with user_function := none } none =
        Except.ok (res, [])) ∧
    (∀ (tick : ℕ) (Y : Iterate),
      (TNT exOracle { wopts with user_function := some (fun _ q => q) }
          tick Y).2.length =
        (TNT exOracle { wopts with user_function := some (fun _ q => q) }
          tick Y).1.numOuter) :=
  C9_monitor_pure exOracle wopts none (fun _ q => q)
    (by norm_num [checkOpts, wopts, exOracle])

end SESyncModel
